import Mathlib

/-!
# Verification of the cocoatly package installation engine

Shallow embedding of the cocoatly Rust crates (cocoatly-core, cocoatly-installer,
cocoatly-downloader, cocoatly-compression) and proofs of the specification claims.

Conventions of the embedding:
* Rust `u32`/`u64`/`usize` values are modelled as `Nat`; bounds (`< 2^32`) appear
  where the source can reject on overflow.
* Timestamps (`chrono::Utc::now()`) and UUIDs (`Uuid::new_v4()`) are supplied by the
  environment as explicit parameters.
* `std::collections::HashMap` is modelled as an association list with the same
  `insert`/`remove`/`get` semantics (insert replaces an existing binding in place).
* Fallible external steps (network, filesystem IO, hashing) are modelled by an
  environment record carrying each step's outcome; the functions thread an explicit
  trace of filesystem actions (`Act`) so statements about side effects on disk can
  be expressed.
-/

namespace Cocoatly


/-! ## Decimal formatting and parsing of `u32` (Rust `Display` / `str::parse`) -/

/-- The character for a single decimal digit `d < 10` (used by `u32`'s `Display`). -/
def digitChar (d : Nat) : Char :=
  match d with
  | 0 => '0' | 1 => '1' | 2 => '2' | 3 => '3' | 4 => '4'
  | 5 => '5' | 6 => '6' | 7 => '7' | 8 => '8' | _ => '9'

/-- Is `c` an ASCII decimal digit? (`str::parse::<u32>` accepts only these.) -/
def isDigitCh (c : Char) : Bool := 48 ≤ c.toNat && c.toNat ≤ 57

/-- Little-endian decimal digits of `n`, computed with explicit fuel so the
definition is structurally recursive (`fuel ≥ n` suffices). -/
def natDigitsRev (fuel n : Nat) : List Nat :=
  match fuel with
  | 0 => []
  | fuel + 1 => if n = 0 then [] else n % 10 :: natDigitsRev fuel (n / 10)

/-- The decimal representation of a natural number, most significant digit first,
exactly as Rust's `Display` for `u32` prints it. -/
def natChars (n : Nat) : List Char :=
  if n = 0 then ['0'] else ((natDigitsRev n n).map digitChar).reverse

/-- Strip the optional leading `'+'` accepted by Rust's `str::parse::<u32>`. -/
def stripPlus (cs : List Char) : List Char :=
  match cs with
  | [] => []
  | c :: rest => if c = '+' then rest else c :: rest

/-- Model of Rust's `str::parse::<u32>().ok()`: optional `'+'`, then one or more
ASCII digits, value below `2^32` (overflow is an error in Rust). -/
def parseU32 (cs : List Char) : Option Nat :=
  let ds := stripPlus cs
  if ds.isEmpty then none
  else if ds.all isDigitCh then
    let v := ds.foldl (fun a c => 10 * a + (c.toNat - 48)) 0
    if v < 4294967296 then some v else none
  else none

/-! ## `Version` (crates/cocoatly-core/src/types.rs) -/

/-- `Version` from types.rs: `major`/`minor`/`patch` are `u32` in the source,
`prerelease`/`build` are `Option<String>`. -/
structure Version where
  major : Nat
  minor : Nat
  patch : Nat
  prerelease : Option String
  build : Option String
deriving DecidableEq, Repr

/-- `Version::new`: the three numeric components with `prerelease`/`build` `None`. -/
def Version.new (major minor patch : Nat) : Version :=
  { major := major, minor := minor, patch := patch, prerelease := none, build := none }

/-- Model of Rust `"...".split('.')`: splits at every `'.'`, keeping empty pieces
(`""` splits to `[""]`, a trailing dot yields a final empty piece). -/
def splitDot : List Char → List (List Char)
  | [] => [[]]
  | c :: rest =>
    if c = '.' then [] :: splitDot rest
    else
      match splitDot rest with
      | [] => [[c]]
      | p :: ps => (c :: p) :: ps

/-- `Version::parse`: split on `'.'`, require at least three parts, parse the first
three as `u32`, ignore any further parts; `prerelease`/`build` are always `None`. -/
def Version.parse (s : String) : Option Version :=
  match splitDot s.data with
  | p0 :: p1 :: p2 :: _ =>
    (parseU32 p0).bind fun major =>
      (parseU32 p1).bind fun minor =>
        (parseU32 p2).map fun patch => Version.new major minor patch
  | _ => none

/-- `Version::to_string`: `format!("{}.{}.{}", major, minor, patch)` — the
`prerelease` and `build` fields are not printed. -/
def Version.to_string (v : Version) : String :=
  ⟨natChars v.major ++ ('.' :: (natChars v.minor ++ ('.' :: natChars v.patch)))⟩

/-! ### The derived `Ord` on `Version` (`#[derive(PartialOrd, Ord)]`):
lexicographic comparison of the fields in declaration order, with
`Option<String>` compared as `None < Some` and strings byte-lexicographically. -/

/-- Rust `Ord::cmp` for unsigned integers. -/
def natCmp (a b : Nat) : Ordering :=
  if a < b then .lt else if a = b then .eq else .gt

/-- Rust `Ord::cmp` for `char`/bytes, via the scalar value. -/
def charCmp (a b : Char) : Ordering := natCmp a.toNat b.toNat

/-- Lexicographic comparison of character lists (Rust `str`/`String` ordering). -/
def listCmp : List Char → List Char → Ordering
  | [], [] => .eq
  | [], _ :: _ => .lt
  | _ :: _, [] => .gt
  | a :: as, b :: bs => (charCmp a b).then (listCmp as bs)

/-- Rust `Ord::cmp` for `String`. -/
def strCmp (a b : String) : Ordering := listCmp a.data b.data

/-- Rust's derived `Ord` for `Option<String>`: `None < Some _`. -/
def optStrCmp : Option String → Option String → Ordering
  | none, none => .eq
  | none, some _ => .lt
  | some _, none => .gt
  | some a, some b => strCmp a b

/-- The derived `Ord::cmp` on `Version`: fields compared in declaration order. -/
def Version.cmp (a b : Version) : Ordering :=
  (natCmp a.major b.major).then
    ((natCmp a.minor b.minor).then
      ((natCmp a.patch b.patch).then
        ((optStrCmp a.prerelease b.prerelease).then
          (optStrCmp a.build b.build))))

/-- Rust `a >= b` for the derived order. -/
def Version.ge (a b : Version) : Bool :=
  match Version.cmp a b with
  | .lt => false
  | _ => true

/-- Rust `a <= b` for the derived order. -/
def Version.le (a b : Version) : Bool :=
  match Version.cmp a b with
  | .gt => false
  | _ => true

/-- Rust `a < b` for the derived order. -/
def Version.lt (a b : Version) : Bool :=
  match Version.cmp a b with
  | .lt => true
  | _ => false

/-! ## Paths

Rust `Path`/`PathBuf` values are modelled as an absolute-flag plus a list of
components. `join` follows `Path::join`: an absolute right operand replaces the
left operand entirely; no normalization of `"."`/`".."` components is performed. -/

structure RPath where
  absolute : Bool
  comps : List String
deriving DecidableEq, Repr

/-- `Path::join`: appends components; an absolute argument replaces the base. -/
def RPath.join (p q : RPath) : RPath :=
  if q.absolute then q else ⟨p.absolute, p.comps ++ q.comps⟩

/-- `Path::join` with a single plain file/directory name. -/
def RPath.joinName (p : RPath) (s : String) : RPath :=
  ⟨p.absolute, p.comps ++ [s]⟩

/-- `Path::parent`: drops the final component; `none` for an empty path. -/
def RPath.parent (p : RPath) : Option RPath :=
  match p.comps with
  | [] => none
  | _ :: _ => some ⟨p.absolute, p.comps.dropLast⟩

/-- One `".."` step on the reversed component stack: pops the previous plain
component, keeps the `".."` literally when there is nothing left to pop on a
relative path, and drops it at the root of an absolute path. -/
def normStepUp (absolute : Bool) (stack : List String) : List String :=
  match stack with
  | [] => if absolute then [] else [".."]
  | top :: stack' => if top = ".." then ".." :: top :: stack' else stack'

/-- Lexical normalization: process components left to right keeping a reversed
stack; `"."` is dropped, `".."` applies `normStepUp`. -/
def normRevAux (absolute : Bool) : List String → List String → List String
  | stack, [] => stack
  | stack, c :: rest =>
    if c = "." then normRevAux absolute stack rest
    else if c = ".." then normRevAux absolute (normStepUp absolute stack) rest
    else normRevAux absolute (c :: stack) rest

/-- The normalized component list of a path. -/
def RPath.normComps (p : RPath) : List String :=
  (normRevAux p.absolute [] p.comps).reverse

/-- `target` denotes a filesystem location strictly inside the directory `dir`
(same absolute-flag, normalized components of `dir` are a proper leading segment
of the normalized components of `target`). -/
def RPath.strictlyInside (dir target : RPath) : Bool :=
  (dir.absolute == target.absolute) &&
    dir.normComps.isPrefixOf target.normComps &&
    decide (dir.normComps.length < target.normComps.length)

/-- A component that is a plain name (not `"."` or `".."`). -/
def goodComp (c : String) : Bool := c ≠ "." && c ≠ ".."

/-! ## Errors (crates/cocoatly-core/src/error.rs)

`IoError`/`SerializationError` carry the wrapped error's message text. -/

inductive CocoatlyError
  | IoError (msg : String)
  | SerializationError (msg : String)
  | PackageNotFound (pkg : String)
  | VersionConflict (msg : String)
  | InvalidManifest (msg : String)
  | DownloadFailed (msg : String)
  | VerificationFailed (msg : String)
  | InstallationFailed (msg : String)
  | DependencyResolutionFailed (msg : String)
  | InvalidSignature (msg : String)
  | HashMismatch (expected : String) (actual : String)
  | PermissionDenied (msg : String)
  | ConfigError (msg : String)
  | StateError (msg : String)
  | RegistryError (msg : String)
deriving DecidableEq, Repr

/-! ## Core data model (crates/cocoatly-core/src/types.rs) -/

structure PackageName where
  s : String
deriving DecidableEq, Repr

/-- `PackageName::as_str`. -/
def PackageName.as_str (n : PackageName) : String := n.s

inductive HashAlgorithm
  | Blake3
  | Sha256
  | Sha512
deriving DecidableEq, Repr

/-- `InstalledPackage` from types.rs (`id : Uuid` modelled as a string,
`installed_at : DateTime<Utc>` modelled as a `Nat` tick). -/
structure InstalledPackage where
  id : String
  name : PackageName
  version : Version
  install_path : String
  installed_at : Nat
  requested_by : List PackageName
  files : List String
  checksum : String
deriving DecidableEq, Repr

/-- `PackageArtifact` from types.rs. -/
structure PackageArtifact where
  package_id : String
  name : PackageName
  version : Version
  download_url : String
  checksum : String
  checksum_algorithm : HashAlgorithm
  signature : Option String
  size : Nat
deriving DecidableEq, Repr

/-! ## State store (crates/cocoatly-core/src/state.rs) -/

structure StateMetadata where
  total_packages : Nat
  total_size_bytes : Nat
  last_cleanup : Option Nat
  corrupted_packages : List String
deriving DecidableEq, Repr

/-- The package mapping: `HashMap<PackageName, InstalledPackage>` modelled as an
association list. -/
abbrev PkgMap := List (PackageName × InstalledPackage)

/-- `HashMap::get`. -/
def lookupPkg : PkgMap → PackageName → Option InstalledPackage
  | [], _ => none
  | (k, v) :: rest, n => if k = n then some v else lookupPkg rest n

/-- `HashMap::insert`: replaces an existing binding for the key in place,
otherwise appends a new binding. -/
def insertPkg : PkgMap → PackageName → InstalledPackage → PkgMap
  | [], n, v => [(n, v)]
  | (k, w) :: rest, n, v =>
    if k = n then (n, v) :: rest else (k, w) :: insertPkg rest n v

/-- `HashMap::remove` (the mapping part): removes the binding for the key. -/
def erasePkg : PkgMap → PackageName → PkgMap
  | [], _ => []
  | (k, w) :: rest, n => if k = n then rest else (k, w) :: erasePkg rest n

/-- `GlobalState` from state.rs (`last_updated : DateTime<Utc>` as a `Nat` tick). -/
structure GlobalState where
  version : String
  last_updated : Nat
  installed_packages : PkgMap
  pending_operations : List String
  metadata : StateMetadata
deriving DecidableEq, Repr

/-- `GlobalState::new` (`Utc::now()` supplied as the `now` parameter). -/
def GlobalState.new (now : Nat) : GlobalState :=
  { version := "1.0.0"
    last_updated := now
    installed_packages := []
    pending_operations := []
    metadata := { total_packages := 0, total_size_bytes := 0,
                  last_cleanup := none, corrupted_packages := [] } }

/-- `GlobalState::add_package`: insert, then set `total_packages` to the map's
length and refresh `last_updated`. -/
def GlobalState.add_package (st : GlobalState) (package : InstalledPackage)
    (now : Nat) : GlobalState :=
  let m := insertPkg st.installed_packages package.name package
  { st with
    installed_packages := m
    metadata := { st.metadata with total_packages := m.length }
    last_updated := now }

/-- `GlobalState::remove_package`: remove the binding; the metadata and timestamp
are refreshed only when something was actually removed. -/
def GlobalState.remove_package (st : GlobalState) (name : PackageName)
    (now : Nat) : Option InstalledPackage × GlobalState :=
  match lookupPkg st.installed_packages name with
  | none => (none, st)
  | some r =>
    let m := erasePkg st.installed_packages name
    (some r,
      { st with
        installed_packages := m
        metadata := { st.metadata with total_packages := m.length }
        last_updated := now })

/-- `GlobalState::get_package`. -/
def GlobalState.get_package (st : GlobalState) (name : PackageName) :
    Option InstalledPackage :=
  lookupPkg st.installed_packages name

/-- `GlobalState::has_package`: true iff the name is bound to a record with
exactly this version. -/
def GlobalState.has_package (st : GlobalState) (name : PackageName)
    (version : Version) : Bool :=
  match lookupPkg st.installed_packages name with
  | some pkg => pkg.version == version
  | none => false

/-! ## Filesystem action traces

Every modelled operation returns, besides its result, the ordered list of
filesystem side effects it performed (or attempted), so that statements about
what was and was not written/removed can be made. -/

inductive Act
  | ensureDir (p : RPath)
  | createDirAll (p : RPath)
  | download (url : String) (dest : RPath)
  | verifyCheck (p : RPath)
  | extract (archive : RPath) (dest : RPath)
  | copyDir (src : RPath) (dst : RPath)
  | removeDir (p : RPath)
  | removeFile (p : RPath)
  | writeState (p : RPath) (doc : GlobalState)
  | unpackEntry (p : RPath)
  | rename (src : RPath) (dst : RPath)
  | hook (name : String)
deriving DecidableEq, Repr

/-- Discriminator: is this action a rename? -/
def Act.isRename : Act → Bool
  | .rename _ _ => true
  | _ => false

/-- The sequence of state documents written to the state-file path `p` by a
trace (empty iff the on-disk document is untouched, byte for byte). -/
def diskWrites (p : RPath) (acts : List Act) : List GlobalState :=
  acts.filterMap fun a =>
    match a with
    | .writeState q doc => if q = p then some doc else none
    | _ => none

/-- `GlobalState::save_to_file`: `create_dir_all` on the parent directory, then
serialize and `fs::write` the document DIRECTLY to the target path (no temporary
file, no rename). The written document is identified with the state value, since
serde serialization is deterministic and injective. `envWrite` is the outcome of
the `fs::write` call. -/
def GlobalState.save_to_file (st : GlobalState) (path : RPath)
    (envWrite : Except CocoatlyError Unit) : Except CocoatlyError Unit × List Act :=
  let parentActs : List Act :=
    match path.parent with
    | some par => [Act.createDirAll par]
    | none => []
  (envWrite, parentActs ++ [Act.writeState path st])

/-- `GlobalState::load_from_file`: a missing file yields a fresh empty state;
otherwise the stored document is returned (`envRead` is the outcome of the
read/deserialize step). -/
def GlobalState.load_from_file (disk : Option GlobalState)
    (envRead : Except CocoatlyError Unit) (now : Nat) :
    Except CocoatlyError GlobalState :=
  match disk with
  | none => .ok (GlobalState.new now)
  | some doc =>
    match envRead with
    | .ok _ => .ok doc
    | .error e => .error e

/-! ## C8: `total_packages` equals the size of the mapping -/

/-- States reachable from a fresh store by the mutating State Store calls
(`add_package`, `remove_package`), with arbitrary timestamps and payloads. -/
inductive Reachable : GlobalState → Prop
  | new (now : Nat) : Reachable (GlobalState.new now)
  | add (st : GlobalState) (p : InstalledPackage) (now : Nat) :
      Reachable st → Reachable (st.add_package p now)
  | remove (st : GlobalState) (n : PackageName) (now : Nat) :
      Reachable st → Reachable (st.remove_package n now).2

/-! ## Archive codec (crates/cocoatly-compression/src/lib.rs)

`TarGzCompressor::decompress` iterates the archive entries; for each entry it
computes `output_path.join(entry_path)`, creates the parent directories, unpacks
the entry at that joined path, and records the path in the returned list. The
source performs NO check on the entry path: no normalization, no rejection of
`".."` components or absolute paths (`Path::join` with an absolute path replaces
the base entirely). External IO is assumed to succeed; the entry paths
themselves are the archive's data. -/

def TarGzCompressor.decompress (entries : List RPath) (output_dir : RPath) :
    Except CocoatlyError (List RPath) × List Act :=
  let acts :=
    Act.createDirAll output_dir ::
      (entries.map fun e =>
        let output_file_path := output_dir.join e
        (match output_file_path.parent with
         | some par => [Act.createDirAll par]
         | none => []) ++ [Act.unpackEntry output_file_path]).flatten
  (.ok (entries.map fun e => output_dir.join e), acts)

/-- `extract_archive` is a thin wrapper around `TarGzCompressor::decompress`. -/
def extract_archive (entries : List RPath) (destination : RPath) :
    Except CocoatlyError (List RPath) × List Act :=
  TarGzCompressor.decompress entries destination

/-! ## Configuration (crates/cocoatly-core/src/config.rs)

Only the sections the installer pipeline reads are modelled
(`registry`/`cache` are never consulted by the claims' code paths). -/

structure StorageConfig where
  install_root : RPath
  cache_dir : RPath
  temp_dir : RPath
  state_file : RPath
  lock_file : RPath
deriving DecidableEq, Repr

structure NetworkConfig where
  max_concurrent_downloads : Nat
  timeout_seconds : Nat
  retry_attempts : Nat
  retry_delay_ms : Nat
  use_proxy : Bool
  proxy_url : Option String
deriving DecidableEq, Repr

structure SecurityConfig where
  verify_signatures : Bool
  verify_checksums : Bool
  allowed_hash_algorithms : List String
  trusted_keys : List String
  reject_insecure_registries : Bool
deriving DecidableEq, Repr

structure HooksConfig where
  pre_install : List String
  post_install : List String
  pre_uninstall : List String
  post_uninstall : List String
deriving DecidableEq, Repr

structure Config where
  storage : StorageConfig
  network : NetworkConfig
  security : SecurityConfig
  hooks : HooksConfig
deriving DecidableEq, Repr

/-! ## Installer (crates/cocoatly-installer/src/install.rs)

`PackageInstaller::install` drives one transaction. The environment record
carries the outcome of every fallible external step (network, hashing,
filesystem) plus the fresh UUIDs and clock reads the code performs. -/

deriving instance DecidableEq for Except

structure InstallEnv where
  /-- Outcome of `downloader.download(url, destination, None)`. -/
  download : Except CocoatlyError Unit
  /-- Outcome of `verify_artifact(path, artifact, None)` (digest check). -/
  verify : Except CocoatlyError Unit
  /-- Outcome of `ensure_directory(extract_dir)`. -/
  ensureExtractDir : Except CocoatlyError Unit
  /-- Outcome of `extract_archive(archive_path, extract_dir)`. -/
  extractArchive : Except CocoatlyError Unit
  /-- Outcome of `ensure_directory(package_install_dir)`. -/
  ensureInstallDir : Except CocoatlyError Unit
  /-- Outcome of `copy_directory(extract_dir, package_install_dir)`. -/
  copyDir : Except CocoatlyError Unit
  /-- Outcome of `remove_directory(extract_dir)`. -/
  removeExtractDir : Except CocoatlyError Unit
  /-- Outcome of `list_files(install_path)` (paths via `to_string_lossy`). -/
  listFiles : Except CocoatlyError (List String)
  /-- `archive_path.exists()` at cleanup time. -/
  archiveExists : Bool
  /-- Outcome of `fs::remove_file(archive_path)`. -/
  removeArchive : Except CocoatlyError Unit
  /-- Outcome of `state.save_to_file(state_file)`. -/
  save : Except CocoatlyError Unit
  /-- `Uuid::new_v4()` for the extraction directory name. -/
  extractUuid : String
  /-- `Uuid::new_v4()` for the new package record. -/
  pkgUuid : String
  /-- `Utc::now()` for `installed_at`/`last_updated`. -/
  now : Nat
deriving DecidableEq, Repr

/-- Render a path the way `to_string_lossy` would. -/
def RPath.render (p : RPath) : String :=
  (if p.absolute then "/" else "") ++ String.intercalate "/" p.comps

/-- `PathBuf::from` on a rendered path string. -/
def RPath.ofString (s : String) : RPath :=
  ⟨s.startsWith "/", (s.splitOn "/").filter (fun c => c ≠ "")⟩

/-- `download_artifact`'s destination:
`temp_dir.join(format!("{}-{}.tar.gz", name, version))`. -/
def archivePath (cfg : Config) (artifact : PackageArtifact) : RPath :=
  cfg.storage.temp_dir.joinName
    (artifact.name.as_str ++ "-" ++ artifact.version.to_string ++ ".tar.gz")

/-- `extract_and_install`'s temp directory:
`temp_dir.join(format!("extract-{}", Uuid::new_v4()))`. -/
def extractDirPath (cfg : Config) (es : InstallEnv) : RPath :=
  cfg.storage.temp_dir.joinName ("extract-" ++ es.extractUuid)

/-- The final install path: `install_root/name/version`. -/
def packageInstallDir (cfg : Config) (artifact : PackageArtifact) : RPath :=
  (cfg.storage.install_root.joinName artifact.name.as_str).joinName
    artifact.version.to_string

/-- `PackageInstaller::download_artifact`: download to the deterministic temp
destination. -/
def PackageInstaller.download_artifact (cfg : Config) (es : InstallEnv)
    (artifact : PackageArtifact) : Except CocoatlyError RPath × List Act :=
  let destination := archivePath cfg artifact
  (match es.download with
   | .ok _ => .ok destination
   | .error e => .error e,
   [Act.download artifact.download_url destination])

/-- `PackageInstaller::verify_artifact`: skipped entirely when
`verify_checksums` is off; the installer passes `public_key = None`, so only the
digest is ever checked. -/
def PackageInstaller.verify_artifact (cfg : Config) (es : InstallEnv)
    (path : RPath) : Except CocoatlyError Unit × List Act :=
  if cfg.security.verify_checksums then (es.verify, [Act.verifyCheck path])
  else (.ok (), [])

/-- `PackageInstaller::extract_and_install`: unpack into a fresh temp directory,
copy into `install_root/name/version`, then delete the temp extraction
directory. -/
def PackageInstaller.extract_and_install (cfg : Config) (es : InstallEnv)
    (archive_path : RPath) (artifact : PackageArtifact) :
    Except CocoatlyError RPath × List Act :=
  let extract_dir := extractDirPath cfg es
  let acts0 := [Act.ensureDir extract_dir]
  match es.ensureExtractDir with
  | .error e => (.error e, acts0)
  | .ok _ =>
    let acts1 := acts0 ++ [Act.extract archive_path extract_dir]
    match es.extractArchive with
    | .error e => (.error e, acts1)
    | .ok _ =>
      let install_path := packageInstallDir cfg artifact
      let acts2 := acts1 ++ [Act.ensureDir install_path]
      match es.ensureInstallDir with
      | .error e => (.error e, acts2)
      | .ok _ =>
        let acts3 := acts2 ++ [Act.copyDir extract_dir install_path]
        match es.copyDir with
        | .error e => (.error e, acts3)
        | .ok _ =>
          let acts4 := acts3 ++ [Act.removeDir extract_dir]
          match es.removeExtractDir with
          | .error e => (.error e, acts4)
          | .ok _ => (.ok install_path, acts4)

/-- `PackageInstaller::cleanup_temp_files`: remove the downloaded archive if it
exists. -/
def PackageInstaller.cleanup_temp_files (es : InstallEnv) (archive_path : RPath) :
    Except CocoatlyError Unit × List Act :=
  if es.archiveExists then (es.removeArchive, [Act.removeFile archive_path])
  else (.ok (), [])

/-- `PackageInstaller::install`, followed line by line from install.rs.
Returns the result, the installer's `GlobalState` after the call, and the trace
of filesystem actions performed (attempted writes included). -/
def PackageInstaller.install (cfg : Config) (st : GlobalState) (es : InstallEnv)
    (artifact : PackageArtifact) (requested_by : List PackageName) :
    Except CocoatlyError InstalledPackage × GlobalState × List Act :=
  if st.has_package artifact.name artifact.version then
    (.error (.InstallationFailed
      ("Package " ++ artifact.name.as_str ++ " " ++ artifact.version.to_string ++
        " already installed")), st, [])
  else
    let dl := PackageInstaller.download_artifact cfg es artifact
    match dl.1 with
    | .error e => (.error e, st, dl.2)
    | .ok archive_path =>
      let vr := PackageInstaller.verify_artifact cfg es archive_path
      match vr.1 with
      | .error e => (.error e, st, dl.2 ++ vr.2)
      | .ok _ =>
        let ei := PackageInstaller.extract_and_install cfg es archive_path artifact
        match ei.1 with
        | .error e => (.error e, st, dl.2 ++ vr.2 ++ ei.2)
        | .ok install_path =>
          -- list_files on the final install path
          match es.listFiles with
          | .error e => (.error e, st, dl.2 ++ vr.2 ++ ei.2)
          | .ok files =>
            let installed_package : InstalledPackage :=
              { id := es.pkgUuid
                name := artifact.name
                version := artifact.version
                install_path := install_path.render
                installed_at := es.now
                requested_by := requested_by
                files := files
                checksum := artifact.checksum }
            -- cleanup_temp_files (before the state commit in the source)
            let cl := PackageInstaller.cleanup_temp_files es archive_path
            let actsC := dl.2 ++ vr.2 ++ ei.2 ++ cl.2
            match cl.1 with
            | .error e => (.error e, st, actsC)
            | .ok _ =>
              -- commit: add_package then save_to_file
              let st1 := st.add_package installed_package es.now
              let saved := st1.save_to_file cfg.storage.state_file es.save
              let acts8 := actsC ++ saved.2
              match saved.1 with
              | .error e => (.error e, st1, acts8)
              | .ok _ =>
                -- run_post_install_hooks (never fails)
                (.ok installed_package, st1,
                  acts8 ++ cfg.hooks.post_install.map Act.hook)

/-! ## Uninstaller (crates/cocoatly-installer/src/uninstall.rs) -/

structure UninstallEnv where
  /-- `install_path.exists()` for the record's install path. -/
  installPathExists : Bool
  /-- Outcome of `remove_directory(install_path)`. -/
  removeInstallDir : Except CocoatlyError Unit
  /-- `package_dir.exists()` for `install_root/name`. -/
  packageDirExists : Bool
  /-- Outcome of `list_files(package_dir)`. -/
  listPackageDir : Except CocoatlyError (List String)
  /-- Outcome of `remove_directory(package_dir)`. -/
  removePackageDir : Except CocoatlyError Unit
  /-- Outcome of `state.save_to_file(state_file)`. -/
  save : Except CocoatlyError Unit
  /-- `Utc::now()` for `last_updated`. -/
  now : Nat
deriving DecidableEq, Repr

/-- `PackageUninstaller::uninstall`, followed line by line from uninstall.rs. -/
def PackageUninstaller.uninstall (cfg : Config) (st : GlobalState)
    (eu : UninstallEnv) (name : PackageName) :
    Except CocoatlyError Unit × GlobalState × List Act :=
  match st.get_package name with
  | none => (.error (.PackageNotFound name.as_str), st, [])
  | some package =>
    -- run_pre_uninstall_hooks (never fails)
    let acts0 := cfg.hooks.pre_uninstall.map Act.hook
    -- remove_package_files
    let install_path := RPath.ofString package.install_path
    let step1 : Except CocoatlyError Unit × List Act :=
      if eu.installPathExists then
        (eu.removeInstallDir, acts0 ++ [Act.removeDir install_path])
      else (.ok (), acts0)
    match step1.1 with
    | .error e => (.error e, st, step1.2)
    | .ok _ =>
      let package_dir := cfg.storage.install_root.joinName package.name.as_str
      -- `package_dir.exists() && list_files(&package_dir)?.is_empty()`
      if eu.packageDirExists then
        match eu.listPackageDir with
        | .error e => (.error e, st, step1.2)
        | .ok fs =>
          let step2 : Except CocoatlyError Unit × List Act :=
            if fs.isEmpty then
              (eu.removePackageDir, step1.2 ++ [Act.removeDir package_dir])
            else (.ok (), step1.2)
          match step2.1 with
          | .error e => (.error e, st, step2.2)
          | .ok _ =>
            let st1 := (st.remove_package name eu.now).2
            let saved := st1.save_to_file cfg.storage.state_file eu.save
            let acts3 := step2.2 ++ saved.2
            match saved.1 with
            | .error e => (.error e, st1, acts3)
            | .ok _ =>
              let acts4 := acts3 ++ cfg.hooks.post_uninstall.map Act.hook
              (.ok (), st1, acts4)
      else
        let st1 := (st.remove_package name eu.now).2
        let saved := st1.save_to_file cfg.storage.state_file eu.save
        let acts3 := step1.2 ++ saved.2
        match saved.1 with
        | .error e => (.error e, st1, acts3)
        | .ok _ =>
          let acts4 := acts3 ++ cfg.hooks.post_uninstall.map Act.hook
          (.ok (), st1, acts4)

/-! ## Updater (crates/cocoatly-installer/src/update.rs) -/

structure UpdateEnv where
  /-- Environment of the inner `uninstall_package` call. -/
  un : UninstallEnv
  /-- Environment of the inner `install_package` call. -/
  inst : InstallEnv
  /-- Outcome of the read/deserialize in the final `load_from_file`. -/
  reload : Except CocoatlyError Unit
  /-- `Utc::now()` used if the state file is absent at reload. -/
  reloadNow : Nat
deriving DecidableEq, Repr

/-- The last document written to `statePath` by the trace, if any (assuming
attempted writes reach the disk). -/
def lastStateWrite (statePath : RPath) (acts : List Act) : Option GlobalState :=
  (diskWrites statePath acts).getLast?

/-- The on-disk state document after a trace ran against initial contents
`disk0`. -/
def currentDisk (disk0 : Option GlobalState) (statePath : RPath)
    (acts : List Act) : Option GlobalState :=
  match lastStateWrite statePath acts with
  | some doc => some doc
  | none => disk0

/-- The proceed branch of `PackageUpdater::update` (everything after the version
guard): `uninstall_package` on a clone of the state, `install_package` on
another clone of the ORIGINAL state, then reload the state file. -/
def PackageUpdater.updateProceed (cfg : Config) (st : GlobalState)
    (disk0 : Option GlobalState) (name : PackageName)
    (new_artifact : PackageArtifact) (env : UpdateEnv)
    (current_package : InstalledPackage) :
    Except CocoatlyError InstalledPackage × GlobalState × List Act :=
  let requested_by := current_package.requested_by
  match PackageUninstaller.uninstall cfg st env.un name with
  | (.error e, _, actsU) => (.error e, st, actsU)
  | (.ok _, _, actsU) =>
    match PackageInstaller.install cfg st env.inst new_artifact requested_by with
    | (.error e, _, actsI) => (.error e, st, actsU ++ actsI)
    | (.ok installed, _, actsI) =>
      let acts := actsU ++ actsI
      match GlobalState.load_from_file
          (currentDisk disk0 cfg.storage.state_file acts) env.reload env.reloadNow with
      | .error e => (.error e, st, acts)
      | .ok newSt => (.ok installed, newSt, acts)

/-- `PackageUpdater::update`, followed from update.rs: look up the current
record, refuse unless the new version is strictly greater (`current >= new`
is rejected), then uninstall-old / install-new / reload. -/
def PackageUpdater.update (cfg : Config) (st : GlobalState)
    (disk0 : Option GlobalState) (name : PackageName)
    (new_artifact : PackageArtifact) (env : UpdateEnv) :
    Except CocoatlyError InstalledPackage × GlobalState × List Act :=
  match st.get_package name with
  | none => (.error (.PackageNotFound name.as_str), st, [])
  | some current_package =>
    if Version.ge current_package.version new_artifact.version then
      (.error (.InstallationFailed
        ("Current version " ++ current_package.version.to_string ++
          " is already up to date or newer than " ++
          new_artifact.version.to_string)), st, [])
    else
      PackageUpdater.updateProceed cfg st disk0 name new_artifact env
        current_package

/-! ## Download coordinator (crates/cocoatly-downloader/src/lib.rs) -/

structure DownloadTask where
  url : String
  destination : RPath
deriving DecidableEq, Repr

structure DownloadResult where
  url : String
  destination : RPath
  size : Nat
  total_size : Nat
deriving DecidableEq, Repr

/-- Rust `slice::chunks(n)`: consecutive batches of `n` elements, the last batch
possibly shorter. (Rust panics for `n = 0`; the model returns `[]` there, and
every theorem carries the `0 < n` precondition.) -/
def chunksOf (n : Nat) (l : List DownloadTask) : List (List DownloadTask) :=
  if _h : n = 0 ∨ l = [] then []
  else l.take n :: chunksOf n (l.drop n)
termination_by l.length
decreasing_by
  push_neg at _h
  have hl : l ≠ [] := _h.2
  have : 0 < l.length := List.length_pos.mpr hl
  have hn : 0 < n := Nat.pos_of_ne_zero _h.1
  simp only [List.length_drop]
  omega

/-- `for result in chunk_results { results.push(result?) }`: collect all results
of a fully awaited batch in order, or return the batch's FIRST error. -/
def collectResults : List (Except CocoatlyError DownloadResult) →
    Except CocoatlyError (List DownloadResult)
  | [] => .ok []
  | .error e :: _ => .error e
  | .ok r :: rest => (collectResults rest).map (r :: ·)

/-- Run batches in order. Each batch is fully started (`join_all` starts every
fetch of the batch and awaits them all), then its results are collected; the
first error stops everything — later batches are never started. Returns the
overall result together with the list of tasks that were actually started. -/
def runChunks (env : DownloadTask → Except CocoatlyError DownloadResult) :
    List (List DownloadTask) →
    Except CocoatlyError (List DownloadResult) × List DownloadTask
  | [] => (.ok [], [])
  | c :: cs =>
    match collectResults (c.map env) with
    | .error e => (.error e, c)
    | .ok rs =>
      match runChunks env cs with
      | (.ok rest, started) => (.ok (rs ++ rest), c ++ started)
      | (.error e, started) => (.error e, c ++ started)

/-- `Downloader::download_multiple`: split the ordered task list into chunks of
`max_concurrent_downloads` and run them batch by batch. `env` gives the outcome
of `self.download` for each task. -/
def Downloader.download_multiple
    (env : DownloadTask → Except CocoatlyError DownloadResult)
    (cfg : NetworkConfig) (downloads : List DownloadTask) :
    Except CocoatlyError (List DownloadResult) :=
  (runChunks env (chunksOf cfg.max_concurrent_downloads downloads)).1

/-- The tasks actually started by `download_multiple`. -/
def Downloader.download_multiple_started
    (env : DownloadTask → Except CocoatlyError DownloadResult)
    (cfg : NetworkConfig) (downloads : List DownloadTask) : List DownloadTask :=
  (runChunks env (chunksOf cfg.max_concurrent_downloads downloads)).2

/-! ### Concrete fixtures for witnesses and counterexamples -/

/-- A concrete configuration. -/
def cfg0 : Config :=
  { storage :=
      { install_root := ⟨true, ["pkgs"]⟩
        cache_dir := ⟨true, ["cache"]⟩
        temp_dir := ⟨true, ["tmp"]⟩
        state_file := ⟨true, ["var", "state.json"]⟩
        lock_file := ⟨true, ["var", "lock"]⟩ }
    network :=
      { max_concurrent_downloads := 8, timeout_seconds := 300, retry_attempts := 3,
        retry_delay_ms := 1000, use_proxy := false, proxy_url := none }
    security :=
      { verify_signatures := true, verify_checksums := true,
        allowed_hash_algorithms := ["blake3", "sha256", "sha512"],
        trusted_keys := [], reject_insecure_registries := true }
    hooks :=
      { pre_install := [], post_install := [], pre_uninstall := [],
        post_uninstall := [] } }

/-- A concrete installed record for `foo@1.0.0`. -/
def fooRecord : InstalledPackage :=
  { id := "id-foo", name := ⟨"foo"⟩, version := ⟨1, 0, 0, none, none⟩
    install_path := "/pkgs/foo/1.0.0", installed_at := 5, requested_by := []
    files := ["/pkgs/foo/1.0.0/bin"], checksum := "abc" }

/-- A concrete state with `foo@1.0.0` installed. -/
def stWithFoo : GlobalState :=
  { version := "1.0.0", last_updated := 5
    installed_packages := [(⟨"foo"⟩, fooRecord)]
    pending_operations := []
    metadata := { total_packages := 1, total_size_bytes := 0,
                  last_cleanup := none, corrupted_packages := [] } }

/-- A concrete empty state. -/
def stEmpty : GlobalState := GlobalState.new 3

/-- A concrete artifact for `foo@1.0.0`. -/
def fooArtifact : PackageArtifact :=
  { package_id := "a1", name := ⟨"foo"⟩, version := ⟨1, 0, 0, none, none⟩
    download_url := "https://r/foo-1.tar.gz", checksum := "abc"
    checksum_algorithm := .Sha256, signature := none, size := 10 }

/-- A concrete artifact for `foo@2.0.0`. -/
def foo2Artifact : PackageArtifact :=
  { package_id := "a2", name := ⟨"foo"⟩, version := ⟨2, 0, 0, none, none⟩
    download_url := "https://r/foo-2.tar.gz", checksum := "def"
    checksum_algorithm := .Sha256, signature := none, size := 12 }

/-- A concrete artifact for `foo@0.9.0` (an older version). -/
def fooOldArtifact : PackageArtifact :=
  { package_id := "a0", name := ⟨"foo"⟩, version := ⟨0, 9, 0, none, none⟩
    download_url := "https://r/foo-09.tar.gz", checksum := "aaa"
    checksum_algorithm := .Sha256, signature := none, size := 9 }

/-- An install environment in which every external step succeeds. -/
def okInstallEnv : InstallEnv :=
  { download := .ok (), verify := .ok (), ensureExtractDir := .ok ()
    extractArchive := .ok (), ensureInstallDir := .ok (), copyDir := .ok ()
    removeExtractDir := .ok (), listFiles := .ok ["/pkgs/foo/2.0.0/bin"]
    archiveExists := true, removeArchive := .ok (), save := .ok ()
    extractUuid := "u-e", pkgUuid := "u-p", now := 7 }

/-- `okInstallEnv` with the digest check failing. -/
def hashMismatchEnv : InstallEnv :=
  { okInstallEnv with verify := .error (.HashMismatch "abc" "0bad") }

/-- `okInstallEnv` with the copy-into-place step failing. -/
def copyFailEnv : InstallEnv :=
  { okInstallEnv with copyDir := .error (.IoError "disk full") }

/-- An uninstall environment in which every external step succeeds. -/
def okUninstallEnv : UninstallEnv :=
  { installPathExists := true, removeInstallDir := .ok ()
    packageDirExists := true, listPackageDir := .ok []
    removePackageDir := .ok (), save := .ok (), now := 8 }

/-- A concrete update environment. -/
def okUpdateEnv : UpdateEnv :=
  { un := okUninstallEnv, inst := okInstallEnv, reload := .ok (), reloadNow := 9 }

/-- Concrete download fixtures. -/
def netCfg2 : NetworkConfig :=
  { max_concurrent_downloads := 2, timeout_seconds := 300, retry_attempts := 3,
    retry_delay_ms := 1000, use_proxy := false, proxy_url := none }

def taskA : DownloadTask := ⟨"uA", ⟨true, ["d", "a"]⟩⟩

def taskB : DownloadTask := ⟨"uB", ⟨true, ["d", "b"]⟩⟩

def taskBad : DownloadTask := ⟨"uBad", ⟨true, ["d", "x"]⟩⟩

def taskC : DownloadTask := ⟨"uC", ⟨true, ["d", "c"]⟩⟩

/-- A concrete per-task outcome function: `uBad` fails, everything else
succeeds. -/
def envDl : DownloadTask → Except CocoatlyError DownloadResult := fun t =>
  if t.url = "uBad" then .error (.DownloadFailed "boom")
  else .ok ⟨t.url, t.destination, 5, 5⟩

/-! ## Theorems -/

/-! ### Round-trip lemmas for decimal printing/parsing -/

theorem digitChar_isDigit {d : Nat} (hd : d < 10) : isDigitCh (digitChar d) = true := by
  interval_cases d <;> decide

theorem digitChar_toNat {d : Nat} (hd : d < 10) : (digitChar d).toNat - 48 = d := by
  interval_cases d <;> decide

theorem digitChar_ne_dot {d : Nat} : digitChar d ≠ '.' := by
  unfold digitChar
  split <;> decide

theorem digitChar_ne_plus {d : Nat} : digitChar d ≠ '+' := by
  unfold digitChar
  split <;> decide

theorem natDigitsRev_eq_digits (fuel n : Nat) (h : n ≤ fuel) :
    natDigitsRev fuel n = Nat.digits 10 n := by
  induction fuel generalizing n with
  | zero =>
    interval_cases n
    simp [natDigitsRev]
  | succ fuel ih =>
    by_cases hn : n = 0
    · subst hn
      simp [natDigitsRev]
    · have hpos : 0 < n := Nat.pos_of_ne_zero hn
      have hdiv : n / 10 < n := Nat.div_lt_self hpos (by norm_num)
      rw [natDigitsRev, if_neg hn, ih (n / 10) (by omega),
        Nat.digits_def' (by norm_num : (1 : Nat) < 10) hpos]

theorem natChars_eq_digits (n : Nat) :
    natChars n = if n = 0 then ['0'] else ((Nat.digits 10 n).map digitChar).reverse := by
  unfold natChars
  rw [natDigitsRev_eq_digits n n le_rfl]

theorem natChars_all_digits (n : Nat) : (natChars n).all isDigitCh = true := by
  rw [natChars_eq_digits]
  split
  · decide
  · simp only [List.all_eq_true]
    intro c hc
    rw [List.mem_reverse, List.mem_map] at hc
    obtain ⟨d, hd, rfl⟩ := hc
    exact digitChar_isDigit (Nat.digits_lt_base (by norm_num) hd)

theorem natChars_ne_nil (n : Nat) : natChars n ≠ [] := by
  rw [natChars_eq_digits]
  split
  · simp
  · simp only [ne_eq, List.reverse_eq_nil_iff, List.map_eq_nil_iff]
    exact Nat.digits_ne_nil_iff_ne_zero.mpr (by assumption)

theorem natChars_no_dot (n : Nat) : ∀ c ∈ natChars n, c ≠ '.' := by
  rw [natChars_eq_digits]
  split
  · intro c hc; simp at hc; subst hc; decide
  · intro c hc
    simp only [List.mem_reverse, List.mem_map] at hc
    obtain ⟨d, _, rfl⟩ := hc
    exact digitChar_ne_dot

theorem stripPlus_of_digits {cs : List Char} (h : cs.all isDigitCh = true) :
    stripPlus cs = cs := by
  cases cs with
  | nil => rfl
  | cons c rest =>
    simp only [List.all_cons, Bool.and_eq_true] at h
    have hc : c ≠ '+' := by
      intro hc
      subst hc
      simp [isDigitCh] at h
    simp [stripPlus, hc]

theorem foldl_digits_eq_ofDigits (ds : List Nat) (hds : ∀ d ∈ ds, d < 10) :
    ((ds.map digitChar).reverse).foldl (fun a c => 10 * a + (c.toNat - 48)) 0 =
      Nat.ofDigits 10 ds := by
  induction ds with
  | nil => simp [Nat.ofDigits]
  | cons d tl ih =>
    have hd : d < 10 := hds d (by simp)
    have htl : ∀ x ∈ tl, x < 10 := fun x hx => hds x (by simp [hx])
    simp only [List.map_cons, List.reverse_cons, List.foldl_append, List.foldl_cons,
      List.foldl_nil, ih htl, Nat.ofDigits_cons, digitChar_toNat hd]
    ring

theorem natChars_foldl (n : Nat) :
    (natChars n).foldl (fun a c => 10 * a + (c.toNat - 48)) 0 = n := by
  rw [natChars_eq_digits]
  split
  · subst ‹n = 0›; decide
  · rw [foldl_digits_eq_ofDigits _ (fun d hd => Nat.digits_lt_base (by norm_num) hd)]
    exact Nat.ofDigits_digits 10 n

theorem parseU32_natChars {n : Nat} (hn : n < 4294967296) :
    parseU32 (natChars n) = some n := by
  unfold parseU32
  rw [stripPlus_of_digits (natChars_all_digits n)]
  have hne : (natChars n).isEmpty = false := by
    rw [List.isEmpty_eq_false]
    exact natChars_ne_nil n
  simp [hne, natChars_all_digits n, natChars_foldl n, hn]

theorem splitDot_cons (c : Char) (rest : List Char) :
    splitDot (c :: rest) =
      if c = '.' then [] :: splitDot rest
      else
        match splitDot rest with
        | [] => [[c]]
        | p :: ps => (c :: p) :: ps := rfl

theorem splitDot_append_dot (a rest : List Char) (ha : ∀ c ∈ a, c ≠ '.') :
    splitDot (a ++ ('.' :: rest)) = a :: splitDot rest := by
  induction a with
  | nil => simp [splitDot]
  | cons c tl ih =>
    have hc : c ≠ '.' := ha c (by simp)
    have htl : ∀ x ∈ tl, x ≠ '.' := fun x hx => ha x (by simp [hx])
    rw [List.cons_append, splitDot_cons, if_neg hc, ih htl]

theorem splitDot_no_dot (a : List Char) (ha : ∀ c ∈ a, c ≠ '.') :
    splitDot a = [a] := by
  induction a with
  | nil => rfl
  | cons c tl ih =>
    have hc : c ≠ '.' := ha c (by simp)
    have htl : ∀ x ∈ tl, x ≠ '.' := fun x hx => ha x (by simp [hx])
    rw [splitDot_cons, if_neg hc, ih htl]

theorem parse_to_string_aux (v : Version)
    (h1 : v.major < 4294967296) (h2 : v.minor < 4294967296) (h3 : v.patch < 4294967296) :
    Version.parse v.to_string =
      some { major := v.major, minor := v.minor, patch := v.patch,
             prerelease := none, build := none } := by
  have hdata : (v.to_string).data =
      natChars v.major ++ ('.' :: (natChars v.minor ++ ('.' :: natChars v.patch))) := rfl
  have hsplit : splitDot (v.to_string).data =
      [natChars v.major, natChars v.minor, natChars v.patch] := by
    rw [hdata, splitDot_append_dot _ _ (natChars_no_dot _),
      splitDot_append_dot _ _ (natChars_no_dot _),
      splitDot_no_dot _ (natChars_no_dot _)]
  unfold Version.parse
  rw [hsplit]
  simp [parseU32_natChars h1, parseU32_natChars h2, parseU32_natChars h3, Version.new]

/-- C10: `Version::parse` is a left inverse of `Version::to_string` exactly on
versions whose `prerelease` and `build` are both `None`: for every `u32`-valued
version, the round trip restores the numeric components with `prerelease` and
`build` cleared, so it returns the original version iff both optional fields were
`None`; otherwise `to_string` drops them and the round trip yields a different
version. -/
theorem Version.parse_to_string_roundtrip (v : Version)
    (h1 : v.major < 4294967296) (h2 : v.minor < 4294967296) (h3 : v.patch < 4294967296) :
    Version.parse v.to_string =
      some { major := v.major, minor := v.minor, patch := v.patch,
             prerelease := none, build := none } ∧
    (Version.parse v.to_string = some v ↔ (v.prerelease = none ∧ v.build = none)) := by
  have hmain := parse_to_string_aux v h1 h2 h3
  refine ⟨hmain, ?_⟩
  rw [hmain]
  cases v with
  | mk ma mi pa pre b =>
    simp only [Option.some_inj, Version.mk.injEq, true_and]
    constructor
    · rintro ⟨h4, h5⟩
      exact ⟨h4.symm, h5.symm⟩
    · rintro ⟨rfl, rfl⟩
      exact ⟨rfl, rfl⟩

/-- Witness for C10 at the concrete version `1.22.333` (no prerelease/build). -/
theorem Version.parse_to_string_roundtrip_witness :
    Version.parse (Version.mk 1 22 333 none none).to_string =
      some { major := 1, minor := 22, patch := 333, prerelease := none, build := none } :=
  (Version.parse_to_string_roundtrip ⟨1, 22, 333, none, none⟩
    (by norm_num) (by norm_num) (by norm_num)).1

/-! ### Antisymmetry of the derived comparison (`cmp a b = (cmp b a).swap`) -/

theorem Ordering.then_swap (x y : Ordering) : (x.then y).swap = x.swap.then y.swap := by
  cases x <;> rfl

theorem natCmp_swap (a b : Nat) : (natCmp a b).swap = natCmp b a := by
  unfold natCmp
  rcases Nat.lt_trichotomy a b with h | h | h
  · rw [if_pos h, if_neg (Nat.lt_asymm h), if_neg (by omega)]
    rfl
  · subst h
    simp [Ordering.swap]
  · rw [if_neg (Nat.lt_asymm h), if_neg (by omega), if_pos h]
    rfl

theorem charCmp_swap (a b : Char) : (charCmp a b).swap = charCmp b a :=
  natCmp_swap a.toNat b.toNat

theorem listCmp_swap (a b : List Char) : (listCmp a b).swap = listCmp b a := by
  induction a generalizing b with
  | nil => cases b <;> rfl
  | cons x xs ih =>
    cases b with
    | nil => rfl
    | cons y ys =>
      show ((charCmp x y).then (listCmp xs ys)).swap = (charCmp y x).then (listCmp ys xs)
      rw [Ordering.then_swap, charCmp_swap, ih ys]

theorem strCmp_swap (a b : String) : (strCmp a b).swap = strCmp b a :=
  listCmp_swap a.data b.data

theorem optStrCmp_swap (a b : Option String) : (optStrCmp a b).swap = optStrCmp b a := by
  cases a <;> cases b <;> first
    | rfl
    | exact strCmp_swap _ _

theorem Version.cmp_swap (a b : Version) : (Version.cmp a b).swap = Version.cmp b a := by
  unfold Version.cmp
  rw [Ordering.then_swap, Ordering.then_swap, Ordering.then_swap, Ordering.then_swap,
    natCmp_swap, natCmp_swap, natCmp_swap, optStrCmp_swap, optStrCmp_swap]

/-- `new <= cur` (the claim's phrasing) coincides with `cur >= new` (the code's
guard in `PackageUpdater::update`). -/
theorem Version.le_iff_ge (a b : Version) : Version.le a b = Version.ge b a := by
  unfold Version.le Version.ge
  rw [← Version.cmp_swap a b]
  cases Version.cmp a b <;> rfl

/-- C8: after every mutating State Store call (`add_package`,
`remove_package`), `metadata.total_packages` equals the number of entries of the
`installed_packages` mapping, for every reachable `GlobalState`. -/
theorem GlobalState.total_packages_invariant (st : GlobalState)
    (h : Reachable st) :
    st.metadata.total_packages = st.installed_packages.length := by
  induction h with
  | new now => rfl
  | add st p now _ _ => rfl
  | remove st n now _ ih =>
    unfold GlobalState.remove_package
    cases hl : lookupPkg st.installed_packages n with
    | none => simpa using ih
    | some r => rfl

/-- Witness for C8: the invariant instantiated at a concrete reachable state
(fresh store, one `add_package`, one `remove_package` of an absent name). -/
theorem GlobalState.total_packages_invariant_witness :
    (((GlobalState.new 0).add_package
        ⟨"id0", ⟨"foo"⟩, ⟨1, 0, 0, none, none⟩, "/p/foo/1.0.0", 1, [], [], "cafe"⟩ 1
      ).remove_package ⟨"bar"⟩ 2).2.metadata.total_packages =
    (((GlobalState.new 0).add_package
        ⟨"id0", ⟨"foo"⟩, ⟨1, 0, 0, none, none⟩, "/p/foo/1.0.0", 1, [], [], "cafe"⟩ 1
      ).remove_package ⟨"bar"⟩ 2).2.installed_packages.length :=
  GlobalState.total_packages_invariant _
    (Reachable.remove _ _ _ (Reachable.add _ _ _ (Reachable.new 0)))

/-! ## C2: atomicity of `save_to_file` -/

/-- C2 counterexample: `save_to_file` at a concrete document and path performs a
`create_dir_all` of the parent followed by a single `fs::write` directly to the
target path — there is NO write to a temporary file and NO rename over the
target, contradicting the claimed temp-file-then-rename atomic protocol. -/
theorem save_to_file_not_atomic_counterexample :
    ((GlobalState.new 0).save_to_file ⟨true, ["home", "state.json"]⟩ (.ok ())).2 =
      [Act.createDirAll ⟨true, ["home"]⟩,
       Act.writeState ⟨true, ["home", "state.json"]⟩ (GlobalState.new 0)] ∧
    (((GlobalState.new 0).save_to_file ⟨true, ["home", "state.json"]⟩ (.ok ())).2.all
      fun a => !a.isRename) = true ∧
    Act.writeState ⟨true, ["home", "state.json"]⟩ (GlobalState.new 0) ∈
      ((GlobalState.new 0).save_to_file ⟨true, ["home", "state.json"]⟩ (.ok ())).2 := by
  refine ⟨rfl, by decide, by simp [GlobalState.save_to_file, RPath.parent]⟩

/-- C2 (amended): `save_to_file` writes the serialized document directly to the
target path after ensuring the parent directory exists; its trace contains
exactly one write, at the target path itself, and never a rename — i.e. the save
is NOT atomic-by-rename. -/
theorem GlobalState.save_to_file_writes_directly (st : GlobalState) (path : RPath)
    (env : Except CocoatlyError Unit) :
    (st.save_to_file path env).2 =
      (match path.parent with
       | some par => [Act.createDirAll par]
       | none => []) ++ [Act.writeState path st] ∧
    ((st.save_to_file path env).2.all fun a => !a.isRename) = true ∧
    diskWrites path (st.save_to_file path env).2 = [st] := by
  refine ⟨rfl, ?_, ?_⟩
  · simp only [GlobalState.save_to_file]
    cases hp : path.parent <;> simp [hp, Act.isRename]
  · simp only [GlobalState.save_to_file, diskWrites, List.filterMap_append]
    cases hp : path.parent <;> simp [hp]

theorem normRevAux_cons (absolute : Bool) (stack : List String) (c : String)
    (rest : List String) :
    normRevAux absolute stack (c :: rest) =
      if c = "." then normRevAux absolute stack rest
      else if c = ".." then normRevAux absolute (normStepUp absolute stack) rest
      else normRevAux absolute (c :: stack) rest := rfl

theorem normRevAux_append (absolute : Bool) (stack xs ys : List String) :
    normRevAux absolute stack (xs ++ ys) =
      normRevAux absolute (normRevAux absolute stack xs) ys := by
  induction xs generalizing stack with
  | nil => rfl
  | cons c rest ih =>
    rw [List.cons_append, normRevAux_cons, normRevAux_cons]
    by_cases h1 : c = "."
    · rw [if_pos h1, if_pos h1]
      exact ih stack
    · rw [if_neg h1, if_neg h1]
      by_cases h2 : c = ".."
      · rw [if_pos h2, if_pos h2]
        exact ih _
      · rw [if_neg h2, if_neg h2]
        exact ih _

theorem normRevAux_good (absolute : Bool) (stack cs : List String)
    (h : ∀ c ∈ cs, goodComp c = true) :
    normRevAux absolute stack cs = cs.reverse ++ stack := by
  induction cs generalizing stack with
  | nil => rfl
  | cons c rest ih =>
    have hc : c ≠ "." ∧ c ≠ ".." := by
      have := h c (by simp)
      simpa [goodComp] using this
    rw [normRevAux_cons, if_neg hc.1, if_neg hc.2,
      ih _ (fun x hx => h x (by simp [hx]))]
    simp

/-- C1 counterexample: extracting the single entry `../escape.txt` to the output
directory `/out` is NOT rejected — `decompress` returns `Ok` and unpacks the
entry at `/out/../escape.txt`, which lies outside (not strictly inside) the
output directory. -/
theorem decompress_escape_counterexample :
    (TarGzCompressor.decompress [⟨false, ["..", "escape.txt"]⟩] ⟨true, ["out"]⟩).1 =
      .ok [⟨true, ["out", "..", "escape.txt"]⟩] ∧
    Act.unpackEntry ⟨true, ["out", "..", "escape.txt"]⟩ ∈
      (TarGzCompressor.decompress [⟨false, ["..", "escape.txt"]⟩] ⟨true, ["out"]⟩).2 ∧
    RPath.strictlyInside ⟨true, ["out"]⟩ ⟨true, ["out", "..", "escape.txt"]⟩ = false ∧
    (TarGzCompressor.decompress [⟨true, ["etc", "passwd"]⟩] ⟨true, ["out"]⟩).1 =
      .ok [⟨true, ["etc", "passwd"]⟩] := by
  refine ⟨rfl, ?_, by decide, rfl⟩
  simp [TarGzCompressor.decompress, RPath.join, RPath.parent]

/-- C1 (amended): `decompress` rejects nothing: for every archive and every
output directory it returns `Ok` with every entry unpacked at
`output_dir.join(entry_path)`; an absolute entry path replaces the output
directory entirely, and the entry `../escape.txt` lands outside (not strictly
inside) every proper absolute output directory. -/
theorem TarGzCompressor.decompress_never_rejects (entries : List RPath)
    (output_dir : RPath)
    (habs : output_dir.absolute = true)
    (hne : output_dir.comps ≠ [])
    (hgood : ∀ c ∈ output_dir.comps, goodComp c = true) :
    (TarGzCompressor.decompress entries output_dir).1 =
      .ok (entries.map fun e => output_dir.join e) ∧
    (∀ e : RPath, e.absolute = true → output_dir.join e = e) ∧
    RPath.strictlyInside output_dir
      (output_dir.join ⟨false, ["..", "escape.txt"]⟩) = false := by
  obtain ⟨oabs, ocomps⟩ := output_dir
  simp only at habs hne hgood
  subst habs
  refine ⟨rfl, ?_, ?_⟩
  · intro e he
    simp [RPath.join, he]
  · cases hrev : ocomps.reverse with
    | nil => exact absurd (List.reverse_eq_nil_iff.mp hrev) hne
    | cons top stack' =>
      have htop : top ≠ ".." := by
        have hmem : top ∈ ocomps := by
          rw [← List.mem_reverse, hrev]
          simp
        have := hgood top hmem
        simp only [goodComp, Bool.and_eq_true, decide_eq_true_eq] at this
        exact this.2
      have hjoin : RPath.join ⟨true, ocomps⟩ ⟨false, ["..", "escape.txt"]⟩ =
          ⟨true, ocomps ++ ["..", "escape.txt"]⟩ := rfl
      have hnormOut : RPath.normComps ⟨true, ocomps⟩ = ocomps := by
        unfold RPath.normComps
        rw [normRevAux_good _ _ _ hgood]
        simp
      have hpop : normStepUp true (top :: stack') = stack' := by
        simp [normStepUp, htop]
      have hstep : normRevAux true (top :: stack') ["..", "escape.txt"] =
          "escape.txt" :: stack' := by
        rw [normRevAux_cons, if_neg (by decide), if_pos rfl, hpop,
          normRevAux_cons, if_neg (by decide), if_neg (by decide)]
        rfl
      have hnormJ : RPath.normComps ⟨true, ocomps ++ ["..", "escape.txt"]⟩ =
          stack'.reverse ++ ["escape.txt"] := by
        unfold RPath.normComps
        simp only [normRevAux_append]
        rw [normRevAux_good _ _ _ hgood, List.append_nil, hrev, hstep]
        simp
      have hlen : ocomps.length = stack'.length + 1 := by
        have h4 := congrArg List.length hrev
        simpa using h4
      have hc3 : decide ((RPath.normComps ⟨true, ocomps⟩).length <
          (RPath.normComps ⟨true, ocomps ++ ["..", "escape.txt"]⟩).length) = false := by
        rw [hnormOut, hnormJ]
        simp [hlen]
      rw [hjoin]
      simp only [RPath.strictlyInside, hc3, Bool.and_false]

/-! ### Helper lemmas about installer traces -/

/-- Witness placeholder section: trace helper lemmas. -/
theorem diskWrites_append (p : RPath) (xs ys : List Act) :
    diskWrites p (xs ++ ys) = diskWrites p xs ++ diskWrites p ys := by
  unfold diskWrites
  exact List.filterMap_append xs ys _

theorem diskWrites_download_artifact (p : RPath) (cfg : Config) (es : InstallEnv)
    (artifact : PackageArtifact) :
    diskWrites p (PackageInstaller.download_artifact cfg es artifact).2 = [] := rfl

theorem diskWrites_singleton_download (p : RPath) (url : String) (dest : RPath) :
    diskWrites p [Act.download url dest] = [] := rfl

theorem diskWrites_cons_download (p : RPath) (url : String) (dest : RPath)
    (rest : List Act) :
    diskWrites p (Act.download url dest :: rest) = diskWrites p rest := rfl

theorem diskWrites_verify_artifact (p : RPath) (cfg : Config) (es : InstallEnv)
    (path : RPath) :
    diskWrites p (PackageInstaller.verify_artifact cfg es path).2 = [] := by
  unfold PackageInstaller.verify_artifact
  cases cfg.security.verify_checksums <;> rfl

theorem diskWrites_extract_and_install (p : RPath) (cfg : Config) (es : InstallEnv)
    (archive_path : RPath) (artifact : PackageArtifact) :
    diskWrites p (PackageInstaller.extract_and_install cfg es archive_path artifact).2
      = [] := by
  unfold PackageInstaller.extract_and_install
  cases es.ensureExtractDir with
  | error e => rfl
  | ok u =>
    cases es.extractArchive with
    | error e => rfl
    | ok u2 =>
      cases es.ensureInstallDir with
      | error e => rfl
      | ok u3 =>
        cases es.copyDir with
        | error e => rfl
        | ok u4 =>
          cases es.removeExtractDir with
          | error e => rfl
          | ok u5 => rfl

theorem diskWrites_cleanup_temp_files (p : RPath) (es : InstallEnv)
    (archive_path : RPath) :
    diskWrites p (PackageInstaller.cleanup_temp_files es archive_path).2 = [] := by
  unfold PackageInstaller.cleanup_temp_files
  cases es.archiveExists <;> rfl

/-- C3 (amended): every install invocation that returns an error before the
State Store commit (with the save step itself succeeding whenever reached, all
errors arise before the commit) leaves the in-memory state identical, writes
nothing to the state file on disk, and leaves `has_package` at its previous
value for every name and version — in particular `has_package(name, version)`
stays `false` when the package was not installed before the call. -/
theorem PackageInstaller.install_pre_commit_error_preserves_state
    (cfg : Config) (st : GlobalState) (es : InstallEnv)
    (artifact : PackageArtifact) (requested_by : List PackageName)
    (e : CocoatlyError) (hsave : es.save = .ok ())
    (herr : (PackageInstaller.install cfg st es artifact requested_by).1 = .error e) :
    (PackageInstaller.install cfg st es artifact requested_by).2.1 = st ∧
    diskWrites cfg.storage.state_file
      (PackageInstaller.install cfg st es artifact requested_by).2.2 = [] ∧
    ∀ (n : PackageName) (v : Version),
      ((PackageInstaller.install cfg st es artifact requested_by).2.1).has_package n v
        = st.has_package n v := by
  unfold PackageInstaller.install at herr ⊢
  cases hhas : st.has_package artifact.name artifact.version with
  | true =>
    simp only [hhas, if_true]
    exact ⟨by trivial, by trivial, fun n v => by trivial⟩
  | false =>
    simp only [hhas, Bool.false_eq_true, if_false] at herr ⊢
    cases hdl : es.download with
    | error e1 =>
      simp only [PackageInstaller.download_artifact, hdl]
      exact ⟨by trivial, by trivial, fun n v => by trivial⟩
    | ok u =>
      cases u
      simp only [PackageInstaller.download_artifact, hdl] at herr ⊢
      cases hv : (PackageInstaller.verify_artifact cfg es (archivePath cfg artifact)).1 with
      | error e1 =>
        simp only [hv]
        refine ⟨by trivial, ?_, fun n v => by trivial⟩
        simp [diskWrites_append, diskWrites_singleton_download, diskWrites_cons_download,
          diskWrites_verify_artifact]
      | ok u1 =>
        cases u1
        simp only [hv] at herr ⊢
        cases hei : (PackageInstaller.extract_and_install cfg es
            (archivePath cfg artifact) artifact).1 with
        | error e1 =>
          simp only [hei]
          refine ⟨by trivial, ?_, fun n v => by trivial⟩
          simp [diskWrites_append, diskWrites_singleton_download, diskWrites_cons_download,
            diskWrites_verify_artifact, diskWrites_extract_and_install]
        | ok install_path =>
          simp only [hei] at herr ⊢
          cases hlf : es.listFiles with
          | error e1 =>
            simp only [hlf]
            refine ⟨by trivial, ?_, fun n v => by trivial⟩
            simp [diskWrites_append, diskWrites_singleton_download, diskWrites_cons_download,
              diskWrites_verify_artifact, diskWrites_extract_and_install]
          | ok files =>
            simp only [hlf] at herr ⊢
            cases hcl : (PackageInstaller.cleanup_temp_files es
                (archivePath cfg artifact)).1 with
            | error e1 =>
              simp only [hcl]
              refine ⟨by trivial, ?_, fun n v => by trivial⟩
              simp [diskWrites_append, diskWrites_singleton_download, diskWrites_cons_download,
                diskWrites_verify_artifact, diskWrites_extract_and_install,
                diskWrites_cleanup_temp_files]
            | ok u2 =>
              cases u2
              simp only [hcl, GlobalState.save_to_file, hsave] at herr
              exact absurd herr (by simp)

/-- C3 counterexample: installing `foo@1.0.0` into a state that already has
exactly `foo@1.0.0` fails immediately and before the commit (nothing is written
to the state file), yet `has_package("foo", 1.0.0)` is TRUE afterwards — it was
true before the call — contradicting the claim that it is false after every
pre-commit failure. -/
theorem install_already_installed_counterexample :
    (PackageInstaller.install cfg0 stWithFoo okInstallEnv fooArtifact []).1 =
      .error (.InstallationFailed "Package foo 1.0.0 already installed") ∧
    diskWrites cfg0.storage.state_file
      (PackageInstaller.install cfg0 stWithFoo okInstallEnv fooArtifact []).2.2 = [] ∧
    (PackageInstaller.install cfg0 stWithFoo okInstallEnv fooArtifact
        []).2.1.has_package ⟨"foo"⟩ ⟨1, 0, 0, none, none⟩ = true := by
  decide

/-- Witness for the amended C3 theorem at the concrete already-installed
rejection. -/
theorem install_pre_commit_error_preserves_state_witness :
    (PackageInstaller.install cfg0 stWithFoo okInstallEnv fooArtifact []).2.1 =
      stWithFoo ∧
    diskWrites cfg0.storage.state_file
      (PackageInstaller.install cfg0 stWithFoo okInstallEnv fooArtifact []).2.2 = [] ∧
    ∀ (n : PackageName) (v : Version),
      ((PackageInstaller.install cfg0 stWithFoo okInstallEnv fooArtifact
          []).2.1).has_package n v = stWithFoo.has_package n v :=
  PackageInstaller.install_pre_commit_error_preserves_state cfg0 stWithFoo
    okInstallEnv fooArtifact []
    (.InstallationFailed "Package foo 1.0.0 already installed") rfl (by decide)

/-- C4 counterexample: an install whose downloaded bytes fail the digest check
returns the HashMismatch error and creates no record, but the downloaded
temporary archive is NOT deleted — no `remove_file` of the archive appears in
the trace (the trace is exactly the download and the failed digest check). -/
theorem install_hash_mismatch_counterexample :
    (PackageInstaller.install cfg0 stEmpty hashMismatchEnv fooArtifact []).1 =
      .error (.HashMismatch "abc" "0bad") ∧
    (PackageInstaller.install cfg0 stEmpty hashMismatchEnv fooArtifact []).2.1 =
      stEmpty ∧
    Act.removeFile (archivePath cfg0 fooArtifact) ∉
      (PackageInstaller.install cfg0 stEmpty hashMismatchEnv fooArtifact []).2.2 ∧
    (PackageInstaller.install cfg0 stEmpty hashMismatchEnv fooArtifact []).2.2 =
      [Act.download "https://r/foo-1.tar.gz" (archivePath cfg0 fooArtifact),
       Act.verifyCheck (archivePath cfg0 fooArtifact)] := by
  decide

/-- C4 (amended): on a digest mismatch, install returns exactly the HashMismatch
error, mutates no state and writes nothing to the state file, and leaves the
downloaded temporary archive in place: the trace is exactly the download
followed by the failed digest check, with no `remove_file` of the archive —
the error propagates before `cleanup_temp_files` is reached (the cleanup step
sits just before the commit, so failures earlier in the pipeline never delete
the archive). -/
theorem PackageInstaller.install_hash_mismatch_keeps_archive
    (cfg : Config) (st : GlobalState) (es : InstallEnv)
    (artifact : PackageArtifact) (requested_by : List PackageName)
    (expected actual : String)
    (hchk : cfg.security.verify_checksums = true)
    (hhas : st.has_package artifact.name artifact.version = false)
    (hdl : es.download = .ok ())
    (hv : es.verify = .error (.HashMismatch expected actual)) :
    (PackageInstaller.install cfg st es artifact requested_by).1 =
      .error (.HashMismatch expected actual) ∧
    (PackageInstaller.install cfg st es artifact requested_by).2.1 = st ∧
    diskWrites cfg.storage.state_file
      (PackageInstaller.install cfg st es artifact requested_by).2.2 = [] ∧
    (PackageInstaller.install cfg st es artifact requested_by).2.2 =
      [Act.download artifact.download_url (archivePath cfg artifact),
       Act.verifyCheck (archivePath cfg artifact)] ∧
    Act.removeFile (archivePath cfg artifact) ∉
      (PackageInstaller.install cfg st es artifact requested_by).2.2 := by
  have htrace : (PackageInstaller.install cfg st es artifact requested_by) =
      (.error (.HashMismatch expected actual), st,
        [Act.download artifact.download_url (archivePath cfg artifact),
         Act.verifyCheck (archivePath cfg artifact)]) := by
    simp [PackageInstaller.install, PackageInstaller.download_artifact,
      PackageInstaller.verify_artifact, hchk, hhas, hdl, hv]
  rw [htrace]
  refine ⟨rfl, rfl, rfl, rfl, ?_⟩
  simp

/-- Witness for the amended C4 theorem at a concrete mismatching install. -/
theorem install_hash_mismatch_keeps_archive_witness :
    (PackageInstaller.install cfg0 stEmpty hashMismatchEnv fooArtifact []).1 =
      .error (.HashMismatch "abc" "0bad") ∧
    (PackageInstaller.install cfg0 stEmpty hashMismatchEnv fooArtifact []).2.1 =
      stEmpty ∧
    diskWrites cfg0.storage.state_file
      (PackageInstaller.install cfg0 stEmpty hashMismatchEnv fooArtifact []).2.2 = [] ∧
    (PackageInstaller.install cfg0 stEmpty hashMismatchEnv fooArtifact []).2.2 =
      [Act.download fooArtifact.download_url (archivePath cfg0 fooArtifact),
       Act.verifyCheck (archivePath cfg0 fooArtifact)] ∧
    Act.removeFile (archivePath cfg0 fooArtifact) ∉
      (PackageInstaller.install cfg0 stEmpty hashMismatchEnv fooArtifact []).2.2 :=
  PackageInstaller.install_hash_mismatch_keeps_archive cfg0 stEmpty hashMismatchEnv
    fooArtifact [] "abc" "0bad" rfl (by decide) rfl rfl

/-- C6 counterexample: when the copy into `install_root/name/version` fails, the
error is propagated but NO removal of the target install directory appears in
the trace — the partially copied final directory is left in place (only the
extraction temp dir removal, which is also skipped, would follow the copy). -/
theorem install_copy_failure_counterexample :
    (PackageInstaller.install cfg0 stEmpty copyFailEnv fooArtifact []).1 =
      .error (.IoError "disk full") ∧
    Act.removeDir (packageInstallDir cfg0 fooArtifact) ∉
      (PackageInstaller.install cfg0 stEmpty copyFailEnv fooArtifact []).2.2 := by
  decide

/-- C6 (amended): if the Installing stage (the copy of the unpacked tree into
`install_root/name/version`) fails, install returns the copy error with the
state untouched and nothing written to the state file, but it does NOT remove
the partially copied target directory: the trace ends at the failed copy and
contains no `remove_directory` of the install directory. -/
theorem PackageInstaller.install_copy_failure_keeps_target
    (cfg : Config) (st : GlobalState) (es : InstallEnv)
    (artifact : PackageArtifact) (requested_by : List PackageName)
    (e : CocoatlyError)
    (hchk : cfg.security.verify_checksums = true)
    (hhas : st.has_package artifact.name artifact.version = false)
    (hdl : es.download = .ok ()) (hv : es.verify = .ok ())
    (hee : es.ensureExtractDir = .ok ()) (hex : es.extractArchive = .ok ())
    (hei : es.ensureInstallDir = .ok ()) (hcp : es.copyDir = .error e) :
    (PackageInstaller.install cfg st es artifact requested_by).1 = .error e ∧
    (PackageInstaller.install cfg st es artifact requested_by).2.1 = st ∧
    diskWrites cfg.storage.state_file
      (PackageInstaller.install cfg st es artifact requested_by).2.2 = [] ∧
    (PackageInstaller.install cfg st es artifact requested_by).2.2 =
      [Act.download artifact.download_url (archivePath cfg artifact),
       Act.verifyCheck (archivePath cfg artifact),
       Act.ensureDir (extractDirPath cfg es),
       Act.extract (archivePath cfg artifact) (extractDirPath cfg es),
       Act.ensureDir (packageInstallDir cfg artifact),
       Act.copyDir (extractDirPath cfg es) (packageInstallDir cfg artifact)] ∧
    Act.removeDir (packageInstallDir cfg artifact) ∉
      (PackageInstaller.install cfg st es artifact requested_by).2.2 := by
  have htrace : (PackageInstaller.install cfg st es artifact requested_by) =
      (.error e, st,
        [Act.download artifact.download_url (archivePath cfg artifact),
         Act.verifyCheck (archivePath cfg artifact),
         Act.ensureDir (extractDirPath cfg es),
         Act.extract (archivePath cfg artifact) (extractDirPath cfg es),
         Act.ensureDir (packageInstallDir cfg artifact),
         Act.copyDir (extractDirPath cfg es) (packageInstallDir cfg artifact)]) := by
    simp [PackageInstaller.install, PackageInstaller.download_artifact,
      PackageInstaller.verify_artifact, PackageInstaller.extract_and_install,
      hchk, hhas, hdl, hv, hee, hex, hei, hcp]
  rw [htrace]
  refine ⟨rfl, rfl, rfl, rfl, ?_⟩
  simp

/-- Witness for the amended C6 theorem at a concrete failing copy. -/
theorem install_copy_failure_keeps_target_witness :
    (PackageInstaller.install cfg0 stEmpty copyFailEnv fooArtifact []).1 =
      .error (.IoError "disk full") ∧
    (PackageInstaller.install cfg0 stEmpty copyFailEnv fooArtifact []).2.1 =
      stEmpty ∧
    diskWrites cfg0.storage.state_file
      (PackageInstaller.install cfg0 stEmpty copyFailEnv fooArtifact []).2.2 = [] ∧
    (PackageInstaller.install cfg0 stEmpty copyFailEnv fooArtifact []).2.2 =
      [Act.download fooArtifact.download_url (archivePath cfg0 fooArtifact),
       Act.verifyCheck (archivePath cfg0 fooArtifact),
       Act.ensureDir (extractDirPath cfg0 copyFailEnv),
       Act.extract (archivePath cfg0 fooArtifact) (extractDirPath cfg0 copyFailEnv),
       Act.ensureDir (packageInstallDir cfg0 fooArtifact),
       Act.copyDir (extractDirPath cfg0 copyFailEnv) (packageInstallDir cfg0 fooArtifact)] ∧
    Act.removeDir (packageInstallDir cfg0 fooArtifact) ∉
      (PackageInstaller.install cfg0 stEmpty copyFailEnv fooArtifact []).2.2 :=
  PackageInstaller.install_copy_failure_keeps_target cfg0 stEmpty copyFailEnv
    fooArtifact [] (.IoError "disk full") rfl (by decide) rfl rfl rfl rfl rfl rfl

/-! ### Association-list lemmas for the package mapping -/

theorem lookupPkg_insertPkg_self (m : PkgMap) (n : PackageName)
    (v : InstalledPackage) : lookupPkg (insertPkg m n v) n = some v := by
  induction m with
  | nil => simp [insertPkg, lookupPkg]
  | cons kv rest ih =>
    obtain ⟨k, w⟩ := kv
    by_cases hk : k = n
    · simp [insertPkg, lookupPkg, hk]
    · simp [insertPkg, lookupPkg, hk, ih]

theorem mem_keys_insertPkg {m : PkgMap} {n x : PackageName} {v : InstalledPackage}
    (h : x ∈ (insertPkg m n v).map Prod.fst) :
    x ∈ m.map Prod.fst ∨ x = n := by
  induction m with
  | nil =>
    simp [insertPkg] at h
    exact Or.inr h
  | cons kv rest ih =>
    obtain ⟨k, w⟩ := kv
    by_cases hk : k = n
    · simp only [insertPkg, hk, eq_self_iff_true, if_true, List.map_cons,
        List.mem_cons] at h
      rcases h with rfl | h
      · exact Or.inr rfl
      · exact Or.inl (by simp [h])
    · simp only [insertPkg, if_neg hk, List.map_cons, List.mem_cons] at h
      rcases h with rfl | h
      · exact Or.inl (by simp)
      · rcases ih h with h2 | h2
        · exact Or.inl (by simp [h2])
        · exact Or.inr h2

theorem insertPkg_keys_nodup {m : PkgMap} {n : PackageName} {v : InstalledPackage}
    (hnd : (m.map Prod.fst).Nodup) : ((insertPkg m n v).map Prod.fst).Nodup := by
  induction m with
  | nil => simp [insertPkg]
  | cons kv rest ih =>
    obtain ⟨k, w⟩ := kv
    simp only [List.map_cons, List.nodup_cons] at hnd
    by_cases hk : k = n
    · simp only [insertPkg, hk, eq_self_iff_true, if_true, List.map_cons,
        List.nodup_cons]
      rw [hk] at hnd
      exact hnd
    · simp only [insertPkg, if_neg hk, List.map_cons, List.nodup_cons]
      refine ⟨?_, ih hnd.2⟩
      intro hmem
      rcases mem_keys_insertPkg hmem with h | h
      · exact hnd.1 h
      · exact hk h

/-- Full evaluation of a successful install transaction. -/
theorem PackageInstaller.install_success_eval
    (cfg : Config) (st : GlobalState) (es : InstallEnv)
    (artifact : PackageArtifact) (requested_by : List PackageName)
    (files : List String)
    (hchk : cfg.security.verify_checksums = true)
    (hhas : st.has_package artifact.name artifact.version = false)
    (hdl : es.download = .ok ()) (hv : es.verify = .ok ())
    (hee : es.ensureExtractDir = .ok ()) (hex : es.extractArchive = .ok ())
    (hei : es.ensureInstallDir = .ok ()) (hcp : es.copyDir = .ok ())
    (hre : es.removeExtractDir = .ok ()) (hlf : es.listFiles = .ok files)
    (harc : es.archiveExists = true) (hra : es.removeArchive = .ok ())
    (hsave : es.save = .ok ()) :
    PackageInstaller.install cfg st es artifact requested_by =
      (.ok { id := es.pkgUuid, name := artifact.name, version := artifact.version,
             install_path := (packageInstallDir cfg artifact).render,
             installed_at := es.now, requested_by := requested_by,
             files := files, checksum := artifact.checksum },
       st.add_package
         { id := es.pkgUuid, name := artifact.name, version := artifact.version,
           install_path := (packageInstallDir cfg artifact).render,
           installed_at := es.now, requested_by := requested_by,
           files := files, checksum := artifact.checksum } es.now,
       [Act.download artifact.download_url (archivePath cfg artifact),
        Act.verifyCheck (archivePath cfg artifact),
        Act.ensureDir (extractDirPath cfg es),
        Act.extract (archivePath cfg artifact) (extractDirPath cfg es),
        Act.ensureDir (packageInstallDir cfg artifact),
        Act.copyDir (extractDirPath cfg es) (packageInstallDir cfg artifact),
        Act.removeDir (extractDirPath cfg es),
        Act.removeFile (archivePath cfg artifact)] ++
       ((st.add_package
         { id := es.pkgUuid, name := artifact.name, version := artifact.version,
           install_path := (packageInstallDir cfg artifact).render,
           installed_at := es.now, requested_by := requested_by,
           files := files, checksum := artifact.checksum } es.now).save_to_file
           cfg.storage.state_file es.save).2 ++
       cfg.hooks.post_install.map Act.hook) := by
  simp [PackageInstaller.install, PackageInstaller.download_artifact,
    PackageInstaller.verify_artifact, PackageInstaller.extract_and_install,
    PackageInstaller.cleanup_temp_files, GlobalState.save_to_file,
    hchk, hhas, hdl, hv, hee, hex, hei, hcp, hre, hlf, harc, hra, hsave]

/-- C5 counterexample: with `foo@1.0.0` installed, installing `foo@2.0.0` does
NOT fail and does NOT uninstall the old version (no removal of
`/pkgs/foo/1.0.0` in the trace); `add_package` silently replaces the record, so
the old `foo@1.0.0` record is gone and `foo` maps to the new `2.0.0` record. -/
theorem install_overwrite_counterexample :
    (PackageInstaller.install cfg0 stWithFoo okInstallEnv foo2Artifact []).1 =
      .ok { id := "u-p", name := ⟨"foo"⟩, version := ⟨2, 0, 0, none, none⟩,
            install_path := "/pkgs/foo/2.0.0", installed_at := 7,
            requested_by := [], files := ["/pkgs/foo/2.0.0/bin"],
            checksum := "def" } ∧
    (PackageInstaller.install cfg0 stWithFoo okInstallEnv
        foo2Artifact []).2.1.get_package ⟨"foo"⟩ =
      some { id := "u-p", name := ⟨"foo"⟩, version := ⟨2, 0, 0, none, none⟩,
             install_path := "/pkgs/foo/2.0.0", installed_at := 7,
             requested_by := [], files := ["/pkgs/foo/2.0.0/bin"],
             checksum := "def" } ∧
    Act.removeDir ⟨true, ["pkgs", "foo", "1.0.0"]⟩ ∉
      (PackageInstaller.install cfg0 stWithFoo okInstallEnv foo2Artifact []).2.2 := by
  decide

/-- C5 (amended): the State Store maps a name to at most one record (key
uniqueness is preserved by every install), but an install of a name already
installed at a DIFFERENT version is not rejected and performs no uninstall:
when every external step succeeds it returns `Ok` and `add_package` silently
replaces the existing record with one at the new version. -/
theorem PackageInstaller.install_replaces_record_for_same_name
    (cfg : Config) (st : GlobalState) (es : InstallEnv)
    (artifact : PackageArtifact) (requested_by : List PackageName)
    (old : InstalledPackage) (files : List String)
    (hold : st.get_package artifact.name = some old)
    (hver : old.version ≠ artifact.version)
    (hnd : (st.installed_packages.map Prod.fst).Nodup)
    (hchk : cfg.security.verify_checksums = true)
    (hdl : es.download = .ok ()) (hv : es.verify = .ok ())
    (hee : es.ensureExtractDir = .ok ()) (hex : es.extractArchive = .ok ())
    (hei : es.ensureInstallDir = .ok ()) (hcp : es.copyDir = .ok ())
    (hre : es.removeExtractDir = .ok ()) (hlf : es.listFiles = .ok files)
    (harc : es.archiveExists = true) (hra : es.removeArchive = .ok ())
    (hsave : es.save = .ok ()) :
    (PackageInstaller.install cfg st es artifact requested_by).1 =
      .ok { id := es.pkgUuid, name := artifact.name, version := artifact.version,
            install_path := (packageInstallDir cfg artifact).render,
            installed_at := es.now, requested_by := requested_by,
            files := files, checksum := artifact.checksum } ∧
    (PackageInstaller.install cfg st es artifact
        requested_by).2.1.get_package artifact.name =
      some { id := es.pkgUuid, name := artifact.name, version := artifact.version,
             install_path := (packageInstallDir cfg artifact).render,
             installed_at := es.now, requested_by := requested_by,
             files := files, checksum := artifact.checksum } ∧
    (((PackageInstaller.install cfg st es artifact
        requested_by).2.1).installed_packages.map Prod.fst).Nodup := by
  have hhas : st.has_package artifact.name artifact.version = false := by
    unfold GlobalState.has_package
    unfold GlobalState.get_package at hold
    rw [hold]
    simp [hver]
  rw [PackageInstaller.install_success_eval cfg st es artifact requested_by files
    hchk hhas hdl hv hee hex hei hcp hre hlf harc hra hsave]
  refine ⟨rfl, ?_, ?_⟩
  · unfold GlobalState.get_package GlobalState.add_package
    exact lookupPkg_insertPkg_self _ _ _
  · unfold GlobalState.add_package
    exact insertPkg_keys_nodup hnd

/-- Witness for the amended C5 theorem: `foo@2.0.0` over installed `foo@1.0.0`. -/
theorem install_replaces_record_witness :
    (PackageInstaller.install cfg0 stWithFoo okInstallEnv foo2Artifact []).1 =
      .ok { id := "u-p", name := ⟨"foo"⟩, version := ⟨2, 0, 0, none, none⟩,
            install_path := (packageInstallDir cfg0 foo2Artifact).render,
            installed_at := 7, requested_by := [],
            files := ["/pkgs/foo/2.0.0/bin"], checksum := "def" } ∧
    (PackageInstaller.install cfg0 stWithFoo okInstallEnv
        foo2Artifact []).2.1.get_package ⟨"foo"⟩ =
      some { id := "u-p", name := ⟨"foo"⟩, version := ⟨2, 0, 0, none, none⟩,
             install_path := (packageInstallDir cfg0 foo2Artifact).render,
             installed_at := 7, requested_by := [],
             files := ["/pkgs/foo/2.0.0/bin"], checksum := "def" } ∧
    (((PackageInstaller.install cfg0 stWithFoo okInstallEnv
        foo2Artifact []).2.1).installed_packages.map Prod.fst).Nodup :=
  PackageInstaller.install_replaces_record_for_same_name cfg0 stWithFoo
    okInstallEnv foo2Artifact [] fooRecord ["/pkgs/foo/2.0.0/bin"]
    rfl (by decide) (by decide) rfl rfl rfl rfl rfl rfl rfl rfl rfl rfl rfl rfl

/-- C7: for an installed package, `update` to a version less than or equal to
the installed one (in the derived total order on `Version`) returns the
version-conflict-style `InstallationFailed` error with an empty action trace and
the state untouched — the original installed record is exactly as before.
Conversely, `update` proceeds into the uninstall/install pipeline exactly when
the new version is strictly greater than the installed one. -/
theorem PackageUpdater.update_refuses_non_greater
    (cfg : Config) (st : GlobalState) (disk0 : Option GlobalState)
    (name : PackageName) (new_artifact : PackageArtifact) (env : UpdateEnv)
    (cur : InstalledPackage)
    (hcur : st.get_package name = some cur) :
    (Version.le new_artifact.version cur.version = true →
      PackageUpdater.update cfg st disk0 name new_artifact env =
        (.error (.InstallationFailed
          ("Current version " ++ cur.version.to_string ++
            " is already up to date or newer than " ++
            new_artifact.version.to_string)), st, []) ∧
      (PackageUpdater.update cfg st disk0 name new_artifact
          env).2.1.get_package name = some cur) ∧
    (Version.le new_artifact.version cur.version = false →
      PackageUpdater.update cfg st disk0 name new_artifact env =
        PackageUpdater.updateProceed cfg st disk0 name new_artifact env cur) := by
  have hge : Version.ge cur.version new_artifact.version =
      Version.le new_artifact.version cur.version :=
    (Version.le_iff_ge new_artifact.version cur.version).symm
  constructor
  · intro hle
    have heval : PackageUpdater.update cfg st disk0 name new_artifact env =
        (.error (.InstallationFailed
          ("Current version " ++ cur.version.to_string ++
            " is already up to date or newer than " ++
            new_artifact.version.to_string)), st, []) := by
      unfold PackageUpdater.update
      rw [hcur]
      dsimp only
      rw [hge, hle]
      simp
    exact ⟨heval, by rw [heval]; exact hcur⟩
  · intro hle
    unfold PackageUpdater.update
    rw [hcur]
    dsimp only
    rw [hge, hle]
    simp

/-- Witness for C7: updating installed `foo@1.0.0` to the older `foo@0.9.0`. -/
theorem update_refuses_non_greater_witness :
    (Version.le fooOldArtifact.version fooRecord.version = true →
      PackageUpdater.update cfg0 stWithFoo (some stWithFoo) ⟨"foo"⟩
          fooOldArtifact okUpdateEnv =
        (.error (.InstallationFailed
          ("Current version " ++ fooRecord.version.to_string ++
            " is already up to date or newer than " ++
            fooOldArtifact.version.to_string)), stWithFoo, []) ∧
      (PackageUpdater.update cfg0 stWithFoo (some stWithFoo) ⟨"foo"⟩
          fooOldArtifact okUpdateEnv).2.1.get_package ⟨"foo"⟩ = some fooRecord) ∧
    (Version.le fooOldArtifact.version fooRecord.version = false →
      PackageUpdater.update cfg0 stWithFoo (some stWithFoo) ⟨"foo"⟩
          fooOldArtifact okUpdateEnv =
        PackageUpdater.updateProceed cfg0 stWithFoo (some stWithFoo) ⟨"foo"⟩
          fooOldArtifact okUpdateEnv fooRecord) :=
  PackageUpdater.update_refuses_non_greater cfg0 stWithFoo (some stWithFoo)
    ⟨"foo"⟩ fooOldArtifact okUpdateEnv fooRecord rfl

/-! ### Download coordinator lemmas -/

theorem chunksOf_eq (n : Nat) (l : List DownloadTask) :
    chunksOf n l =
      if n = 0 ∨ l = [] then [] else l.take n :: chunksOf n (l.drop n) := by
  rw [chunksOf]
  split <;> rfl

theorem chunksOf_step (n : Nat) (l : List DownloadTask) (hn : 0 < n)
    (hl : l ≠ []) :
    chunksOf n l = l.take n :: chunksOf n (l.drop n) := by
  rw [chunksOf_eq, if_neg (by push_neg; exact ⟨hn.ne', hl⟩)]

theorem chunksOf_flatten_aux (n : Nat) (hn : 0 < n) (N : Nat) :
    ∀ l : List DownloadTask, l.length ≤ N → (chunksOf n l).flatten = l := by
  induction N with
  | zero =>
    intro l hl
    have : l = [] := List.length_eq_zero.mp (Nat.le_zero.mp hl)
    subst this
    simp [chunksOf_eq]
  | succ N ih =>
    intro l hl
    by_cases hnil : l = []
    · subst hnil
      simp [chunksOf_eq]
    · rw [chunksOf_step n l hn hnil, List.flatten_cons,
        ih (l.drop n) (by
          rw [List.length_drop]
          have : 0 < l.length := List.length_pos.mpr hnil
          omega)]
      exact List.take_append_drop n l

theorem chunksOf_flatten (n : Nat) (hn : 0 < n) (l : List DownloadTask) :
    (chunksOf n l).flatten = l :=
  chunksOf_flatten_aux n hn l.length l le_rfl

theorem chunksOf_size_aux (n : Nat) (hn : 0 < n) (N : Nat) :
    ∀ l : List DownloadTask, l.length ≤ N →
      ∀ c ∈ chunksOf n l, c.length ≤ n := by
  induction N with
  | zero =>
    intro l hl c hc
    have : l = [] := List.length_eq_zero.mp (Nat.le_zero.mp hl)
    subst this
    simp [chunksOf_eq] at hc
  | succ N ih =>
    intro l hl c hc
    by_cases hnil : l = []
    · subst hnil
      simp [chunksOf_eq] at hc
    · rw [chunksOf_step n l hn hnil] at hc
      rcases List.mem_cons.mp hc with rfl | hc
      · rw [List.length_take]
        exact min_le_left _ _
      · exact ih (l.drop n) (by
          rw [List.length_drop]
          have : 0 < l.length := List.length_pos.mpr hnil
          omega) c hc

theorem chunksOf_size (n : Nat) (hn : 0 < n) (l : List DownloadTask) :
    ∀ c ∈ chunksOf n l, c.length ≤ n :=
  chunksOf_size_aux n hn l.length l le_rfl

theorem collectResults_all_ok
    (env : DownloadTask → Except CocoatlyError DownloadResult)
    (f : DownloadTask → DownloadResult) (c : List DownloadTask)
    (h : ∀ t ∈ c, env t = .ok (f t)) :
    collectResults (c.map env) = .ok (c.map f) := by
  induction c with
  | nil => rfl
  | cons t rest ih =>
    rw [List.map_cons, h t (by simp)]
    show (collectResults (rest.map env)).map (f t :: ·) = .ok ((t :: rest).map f)
    rw [ih (fun x hx => h x (by simp [hx]))]
    rfl

theorem collectResults_isOk
    (env : DownloadTask → Except CocoatlyError DownloadResult)
    (c : List DownloadTask) (h : ∀ t ∈ c, (env t).isOk = true) :
    ∃ rs, collectResults (c.map env) = .ok rs := by
  induction c with
  | nil => exact ⟨[], rfl⟩
  | cons t rest ih =>
    obtain ⟨rs, hrs⟩ := ih (fun x hx => h x (by simp [hx]))
    cases henv : env t with
    | error e =>
      have := h t (by simp)
      rw [henv] at this
      simp [Except.isOk, Except.toBool] at this
    | ok b =>
      refine ⟨b :: rs, ?_⟩
      rw [List.map_cons, henv]
      show (collectResults (rest.map env)).map (b :: ·) = _
      rw [hrs]
      rfl

theorem collectResults_first_error
    (env : DownloadTask → Except CocoatlyError DownloadResult)
    (e : CocoatlyError) (t : DownloadTask) :
    ∀ (pre post : List DownloadTask), (∀ x ∈ pre, (env x).isOk = true) →
      env t = .error e →
      collectResults ((pre ++ t :: post).map env) = .error e := by
  intro pre
  induction pre with
  | nil =>
    intro post _ ht
    rw [List.nil_append, List.map_cons, ht]
    rfl
  | cons x rest ih =>
    intro post hpre ht
    cases henv : env x with
    | error e2 =>
      have := hpre x (by simp)
      rw [henv] at this
      simp [Except.isOk, Except.toBool] at this
    | ok b =>
      rw [List.cons_append, List.map_cons, henv]
      show (collectResults ((rest ++ t :: post).map env)).map (b :: ·) = .error e
      rw [ih post (fun y hy => hpre y (by simp [hy])) ht]
      rfl

theorem runChunks_all_ok
    (env : DownloadTask → Except CocoatlyError DownloadResult)
    (f : DownloadTask → DownloadResult) (cs : List (List DownloadTask))
    (h : ∀ c ∈ cs, ∀ t ∈ c, env t = .ok (f t)) :
    runChunks env cs = (.ok (cs.flatten.map f), cs.flatten) := by
  induction cs with
  | nil => rfl
  | cons c rest ih =>
    rw [runChunks, collectResults_all_ok env f c (h c (by simp)),
      ih (fun c2 hc2 => h c2 (by simp [hc2]))]
    simp

theorem download_multiple_error_aux
    (env : DownloadTask → Except CocoatlyError DownloadResult)
    (n : Nat) (hn : 0 < n) (e : CocoatlyError) (N : Nat) :
    ∀ (pre : List DownloadTask) (t : DownloadTask) (post : List DownloadTask),
      pre.length ≤ N → (∀ x ∈ pre, (env x).isOk = true) → env t = .error e →
      runChunks env (chunksOf n (pre ++ t :: post)) =
        (.error e, (pre ++ t :: post).take (n * (pre.length / n + 1))) := by
  induction N with
  | zero =>
    intro pre t post hlen hpre ht
    have hpre0 : pre = [] := List.length_eq_zero.mp (Nat.le_zero.mp hlen)
    subst hpre0
    rw [List.nil_append]
    obtain ⟨m, hm⟩ : ∃ m, n = m + 1 := ⟨n - 1, by omega⟩
    have htake : (t :: post).take n = t :: post.take m := by
      rw [hm, List.take_succ_cons]
    have hfe := collectResults_first_error env e t [] (post.take m) (by simp) ht
    rw [List.nil_append] at hfe
    rw [chunksOf_step n (t :: post) hn (by simp), runChunks, htake, hfe]
    simp [htake, Nat.zero_div]
  | succ N ih =>
    intro pre t post hlen hpre ht
    by_cases hsmall : pre.length < n
    · -- the failing task is in the first batch
      have htasks : (pre ++ t :: post) ≠ [] := by simp
      rw [chunksOf_step n (pre ++ t :: post) hn htasks]
      obtain ⟨m, hm⟩ : ∃ m, n - pre.length = m + 1 := ⟨n - pre.length - 1, by omega⟩
      have htake : (pre ++ t :: post).take n = pre ++ t :: post.take m := by
        rw [List.take_append_eq_append_take,
          List.take_of_length_le (by omega), hm, List.take_succ_cons]
      rw [runChunks, htake,
        collectResults_first_error env e t pre (post.take m) hpre ht]
      rw [Nat.div_eq_of_lt hsmall]
      simp [htake]
    · -- the whole first batch lies inside `pre`
      push_neg at hsmall
      have htasks : (pre ++ t :: post) ≠ [] := by simp
      rw [chunksOf_step n (pre ++ t :: post) hn htasks]
      have htake : (pre ++ t :: post).take n = pre.take n := by
        rw [List.take_append_eq_append_take,
          show n - pre.length = 0 from by omega]
        simp
      have hdrop : (pre ++ t :: post).drop n = pre.drop n ++ t :: post := by
        rw [List.drop_append_eq_append_drop,
          show n - pre.length = 0 from by omega]
        simp
      obtain ⟨rs, hrs⟩ := collectResults_isOk env (pre.take n)
        (fun x hx => hpre x (List.take_subset n pre hx))
      have hlen2 : (pre.drop n).length ≤ N := by
        rw [List.length_drop]
        omega
      rw [runChunks, htake, hrs, hdrop,
        ih (pre.drop n) t post hlen2
          (fun x hx => hpre x (List.drop_subset n pre hx)) ht]
      have harith : n * ((pre.drop n).length / n + 1) + n =
          n * (pre.length / n + 1) := by
        rw [List.length_drop]
        have hd : pre.length / n = (pre.length - n) / n + 1 :=
          Nat.div_eq_sub_div hn hsmall
        rw [hd]
        ring
      have hsplit : (pre ++ t :: post).take (n * (pre.length / n + 1)) =
          pre.take n ++ ((pre.drop n ++ t :: post).take
            (n * ((pre.drop n).length / n + 1))) := by
        rw [← harith, Nat.add_comm, List.take_add, htake, hdrop]
      rw [hsplit]

/-- C9: `download_multiple` partitions the ordered task list into batches of at
most `max_concurrent_downloads` tasks whose concatenation is the original list;
when every fetch succeeds it returns the results in submission order with every
task started; and when a task fails (all tasks before it succeeding), the first
failure's error is propagated and exactly the batches up to and including the
failing batch were started — the failing task's batch-siblings are started, and
no later batch (in particular batch K+1 before batch K completes) ever starts. -/
theorem Downloader.download_multiple_spec
    (env : DownloadTask → Except CocoatlyError DownloadResult)
    (cfg : NetworkConfig) (hn : 0 < cfg.max_concurrent_downloads) :
    (∀ tasks : List DownloadTask,
      (chunksOf cfg.max_concurrent_downloads tasks).flatten = tasks ∧
      ∀ c ∈ chunksOf cfg.max_concurrent_downloads tasks,
        c.length ≤ cfg.max_concurrent_downloads) ∧
    (∀ (tasks : List DownloadTask) (f : DownloadTask → DownloadResult),
      (∀ t ∈ tasks, env t = .ok (f t)) →
      Downloader.download_multiple env cfg tasks = .ok (tasks.map f) ∧
      Downloader.download_multiple_started env cfg tasks = tasks) ∧
    (∀ (pre : List DownloadTask) (t : DownloadTask) (post : List DownloadTask)
      (e : CocoatlyError),
      (∀ x ∈ pre, (env x).isOk = true) → env t = .error e →
      Downloader.download_multiple env cfg (pre ++ t :: post) = .error e ∧
      Downloader.download_multiple_started env cfg (pre ++ t :: post) =
        (pre ++ t :: post).take
          (cfg.max_concurrent_downloads *
            (pre.length / cfg.max_concurrent_downloads + 1))) := by
  refine ⟨fun tasks => ⟨chunksOf_flatten _ hn tasks, chunksOf_size _ hn tasks⟩,
    fun tasks f h => ?_, fun pre t post e hpre ht => ?_⟩
  · have hok : ∀ c ∈ chunksOf cfg.max_concurrent_downloads tasks,
        ∀ t ∈ c, env t = .ok (f t) := by
      intro c hc t htc
      refine h t ?_
      rw [← chunksOf_flatten cfg.max_concurrent_downloads hn tasks]
      exact List.mem_flatten.mpr ⟨c, hc, htc⟩
    unfold Downloader.download_multiple Downloader.download_multiple_started
    rw [runChunks_all_ok env f _ hok, chunksOf_flatten _ hn tasks]
    exact ⟨rfl, rfl⟩
  · have := download_multiple_error_aux env cfg.max_concurrent_downloads hn e
      pre.length pre t post le_rfl hpre ht
    unfold Downloader.download_multiple Downloader.download_multiple_started
    rw [this]
    exact ⟨rfl, rfl⟩

/-- Witness for C9: with concurrency 2 and tasks `[A, B, Bad, C]`, the failure
of `Bad` (third task, second batch) is propagated and all four tasks were
started (the failing batch's sibling `C` included). -/
theorem download_multiple_spec_witness :
    Downloader.download_multiple envDl netCfg2 [taskA, taskB, taskBad, taskC] =
      .error (.DownloadFailed "boom") ∧
    Downloader.download_multiple_started envDl netCfg2
        [taskA, taskB, taskBad, taskC] =
      ([taskA, taskB, taskBad, taskC] : List DownloadTask).take (2 * (2 / 2 + 1)) :=
  (Downloader.download_multiple_spec envDl netCfg2 (by decide)).2.2
    [taskA, taskB] taskBad [taskC] (.DownloadFailed "boom")
    (by decide) (by decide)

/-- Witness for the amended C1 theorem at the concrete output directory
`/srv/pkg`. -/
theorem TarGzCompressor.decompress_never_rejects_witness :
    (TarGzCompressor.decompress [⟨false, ["..", "escape.txt"]⟩]
        ⟨true, ["srv", "pkg"]⟩).1 =
      .ok ([⟨false, ["..", "escape.txt"]⟩].map fun e =>
        RPath.join ⟨true, ["srv", "pkg"]⟩ e) ∧
    (∀ e : RPath, e.absolute = true → RPath.join ⟨true, ["srv", "pkg"]⟩ e = e) ∧
    RPath.strictlyInside ⟨true, ["srv", "pkg"]⟩
      (RPath.join ⟨true, ["srv", "pkg"]⟩ ⟨false, ["..", "escape.txt"]⟩) = false :=
  TarGzCompressor.decompress_never_rejects _ _ rfl (by decide) (by decide)

end Cocoatly
